import Mathlib

/-!
# ESP-Miner simulation drivers: the ASIC mining-engine simulator

A shallow embedding of `main/simulation/asic_sim.c`, with the code setters of
`ds4432u_sim.c`, `ADC_get_vcore` of `adc_sim.c` and the output-voltage functions
of `tps546_sim.c`.  The file-level statics of `asic_sim.c` become the record
`SimState`, the parts of `GlobalState` the simulator touches become the record
`GlobalState`, and a call is a function on a `World` that also records, in program
order, the memory and lock effects the call performs (`Event`).  Nullable C pointers
are `Option`s; logging macros (`ESP_LOGx`) have no effect on the modelled state and
are left out.  What a call takes from its environment (the result of
`pthread_mutex_lock`, the tick count, the values of `rand()`, the platform's
treatment of out-of-range conversions) is an explicit argument, and between two calls
the firmware may change `GlobalState` (`Op.firmware`).

Floating point.  The jitter expressions of `ASIC_get_asic_job_frequency_ms`,
`TPS546_init` and `TPS546_get_vout` are `float` arithmetic and are modelled with the
rounding of binary32 after every conversion, literal and operation (`round32`): what
is stated about them concerns margins of one part in a thousand that the last bit of
a `float` decides.  The timing computations of `ASIC_process_work` and the `double`
part of the estimator are modelled in exact arithmetic on rationals with an infinity
and a NaN (`FVal`); there rounding is not modelled, and a decimal literal stands for
the decimal it writes.
-/

namespace EspMinerSim

/-- The address of a `bm_job`; the simulator only uses the identity of a job. -/
abbrev JobRef := Nat

/-- Number of slots of `active_jobs` and `valid_jobs` (the modulus of the job-id counter). -/
abbrev SLOTS : Nat := 128

/-- The slot of the two arrays addressed by a counter value. -/
def slotOf (c : Nat) : Fin SLOTS := ⟨c % 128, Nat.mod_lt c (by decide)⟩

/-- Memory and lock effects of the simulator, recorded in program order. -/
inductive Event where
  /-- `free(active_jobs[slot])`, where the slot held the reference `p`. -/
  | free (slot : Fin SLOTS) (p : JobRef)
  /-- `active_jobs[slot] = p`. -/
  | storeJob (slot : Fin SLOTS) (p : JobRef)
  /-- `pthread_mutex_lock(&valid_jobs_lock)` returned `result`. -/
  | lock (result : Int)
  /-- `valid_jobs[slot] = 1`. -/
  | setValid (slot : Fin SLOTS)
  /-- `pthread_mutex_unlock(&valid_jobs_lock)`. -/
  | unlock
  deriving DecidableEq, Repr

/-- The struct `task_result` as the simulator fills it. -/
structure task_result where
  job_id : Nat := 0
  nonce : Nat := 0
  rolled_version : Nat := 0
  deriving DecidableEq, Repr

/-- The fields of `DEVICE_CONFIG.family.asic` read by the simulator (the header
declaring them is not part of the sources; they are unsigned integers). -/
structure AsicConfig where
  default_frequency_mhz : Nat := 0
  small_core_count : Nat := 0
  difficulty : Nat := 0
  deriving DecidableEq, Repr

/-- The fields of `DEVICE_CONFIG.family` read by the simulator. -/
structure FamilyConfig where
  asic : AsicConfig := {}
  asic_count : Nat := 0
  deriving DecidableEq, Repr

/-- The device profile `DEVICE_CONFIG`. -/
structure DeviceConfig where
  family : FamilyConfig := {}
  deriving DecidableEq, Repr

/-- The part of `GlobalState` the simulator reads and writes.  `active_jobs`
(the Job Slot Table) and `valid_jobs` (the Validity Bitmap) are pointers to
arrays of 128 entries owned by the firmware; `none` is the null pointer.  An
entry of `active_jobs` is a nullable job pointer, an entry of `valid_jobs` a
`uint8_t` flag. -/
structure GlobalState where
  active_jobs : Option (Fin SLOTS → Option JobRef) := none
  valid_jobs : Option (Fin SLOTS → Nat) := none
  DEVICE_CONFIG : DeviceConfig := {}

/-- The file-level statics of `asic_sim.c`, with their initialisers. -/
structure SimState where
  simulated_chip_count : Nat := 0
  simulated_frequency : ℚ := 400
  simulated_version_mask : Nat := 0
  simulated_baud_rate : Int := 115200
  simulated_job_id_counter : Nat := 0
  simulated_result : task_result := {}
  has_pending_result : Bool := false
  last_result_time : Nat := 0
  /-- The static local `last_log_time` of `ASIC_process_work`. -/
  last_log_time : Nat := 0

/-- Everything a call can observe or change, with the effects performed so far. -/
structure World where
  G : GlobalState := {}
  sim : SimState := {}
  trace : List Event := []

/-- Record one effect at the end of the trace. -/
def World.emit (w : World) (e : Event) : World :=
  { w with trace := w.trace ++ [e] }

/-- The statement `free(active_jobs[slot])` for a slot holding `old`. -/
def World.free_job (w : World) (slot : Fin SLOTS) (old : JobRef) : World :=
  w.emit (Event.free slot old)

/-- The statement `active_jobs[slot] = job` on the allocated table `jobs`. -/
def World.write_active_jobs (w : World) (jobs : Fin SLOTS → Option JobRef)
    (slot : Fin SLOTS) (job : JobRef) : World :=
  ({ w with G := { w.G with active_jobs := some (Function.update jobs slot (some job)) } }).emit
    (Event.storeJob slot job)

/-- The statement `valid_jobs[slot] = 1` on the allocated bitmap `valid`. -/
def World.write_valid_jobs (w : World) (valid : Fin SLOTS → Nat) (slot : Fin SLOTS) : World :=
  ({ w with G := { w.G with valid_jobs := some (Function.update valid slot 1) } }).emit
    (Event.setValid slot)

/-- The function `ASIC_send_work(GLOBAL_STATE, next_job)`.  `lock_result` is the value
`pthread_mutex_lock` returns in this call. -/
def ASIC_send_work (lock_result : Int) (w : World) (next_job : Option JobRef) : World :=
  match next_job with
  | none => w
  | some job =>
    let slot : Fin SLOTS := slotOf (w.sim.simulated_job_id_counter + 1)
    let w1 : World := { w with sim := { w.sim with simulated_job_id_counter := slot.val } }
    match w1.G.active_jobs, w1.G.valid_jobs with
    | some jobs, some valid =>
      let w2 : World :=
        match jobs slot with
        | some old => w1.free_job slot old
        | none => w1
      let w3 : World := w2.write_active_jobs jobs slot job
      let w4 : World := w3.emit (Event.lock lock_result)
      if lock_result = 0 then
        (w4.write_valid_jobs valid slot).emit Event.unlock
      else
        w4.write_valid_jobs valid slot
    | _, _ => w1

/-- The effects a call added to the trace of `w`, given the world `w2` it produced. -/
def newEvents (w w2 : World) : List Event := w2.trace.drop w.trace.length

/-- The job references released by a list of effects, in order. -/
def released : List Event → List JobRef
  | [] => []
  | Event.free _ p :: es => p :: released es
  | _ :: es => released es

/-- The job references held by an allocated table, by slot. -/
def storedJobs (jobs : Fin SLOTS → Option JobRef) : List JobRef :=
  (List.finRange SLOTS).filterMap jobs

/-- The table with every slot empty. -/
def emptyTable : Fin SLOTS → Option JobRef := fun _ => none

/-- The bitmap with every flag clear. -/
def clearBitmap : Fin SLOTS → Nat := fun _ => 0

/-- A world with both arrays allocated, holding `jobs` and `valid`, and counter `c`. -/
def allocated (jobs : Fin SLOTS → Option JobRef) (valid : Fin SLOTS → Nat) (c : Nat) : World :=
  { G := { active_jobs := some jobs, valid_jobs := some valid },
    sim := { simulated_job_id_counter := c } }

/-- The release a submission performs on a slot whose prior entry is `o`: one `free`
when the slot is occupied, nothing when it is empty. -/
def releaseOf (slot : Fin SLOTS) (o : Option JobRef) : List Event :=
  match o with
  | some old => [Event.free slot old]
  | none => []

/-- Whether the Job Slot Table of `G` is allocated and holds the reference `j`. -/
def holdsJob (G : GlobalState) (j : JobRef) : Bool :=
  match G.active_jobs with
  | none => false
  | some jobs => decide (j ∈ storedJobs jobs)

/-- Whether every release, job store and validity write of a list of effects happens
while `valid_jobs_lock` is held, when `depth` acquisitions are outstanding on entry
(the lock is recursive; a `lock` with a non-zero result acquires nothing). -/
def allUnderLock (depth : Nat) : List Event → Bool
  | [] => true
  | Event.lock r :: es => allUnderLock (if r = 0 then depth + 1 else depth) es
  | Event.unlock :: es => allUnderLock (depth - 1) es
  | Event.free _ _ :: es => decide (0 < depth) && allUnderLock depth es
  | Event.storeJob _ _ :: es => decide (0 < depth) && allUnderLock depth es
  | Event.setValid _ :: es => decide (0 < depth) && allUnderLock depth es

/-- A sequence of submissions: each call comes with the result its
`pthread_mutex_lock` returns and its (non-null) job. -/
def submitAll (w : World) : List (Int × JobRef) → World
  | [] => w
  | (lock_result, job) :: rest => submitAll (ASIC_send_work lock_result w (some job)) rest

/-- Two hundred submissions of the pairwise distinct jobs 1, 2, ..., 200, each with a
successful lock. -/
def calls200 : List (Int × JobRef) := (List.range 200).map (fun k => (0, k + 1))

/-! ## Result polling: the model of `ASIC_process_work` -/

/-- A value of the timing computations and of the `double` part of the estimator: a
rational number, an infinity or a NaN.  Finite results are exact: rounding to the
floating-point format and overflow of a finite result are not modelled.  The sign of
a zero and of an infinity is not tracked; the simulator only converts these values to
integer types, and for that both signs of an infinity are out of range and both zeros
give 0. -/
inductive FVal where
  | fin (q : ℚ)
  | inf
  | nan
  deriving DecidableEq

/-- Floating-point multiplication. -/
def FVal.mul : FVal → FVal → FVal
  | FVal.fin a, FVal.fin b => FVal.fin (a * b)
  | FVal.fin a, FVal.inf => if a = 0 then FVal.nan else FVal.inf
  | FVal.inf, FVal.fin b => if b = 0 then FVal.nan else FVal.inf
  | FVal.inf, FVal.inf => FVal.inf
  | FVal.nan, _ => FVal.nan
  | _, FVal.nan => FVal.nan

/-- Floating-point division: a non-zero value over zero is an infinity, zero over
zero and infinity over infinity are NaN, a finite value over an infinity is zero. -/
def FVal.div : FVal → FVal → FVal
  | FVal.fin a, FVal.fin b =>
    if b = 0 then (if a = 0 then FVal.nan else FVal.inf) else FVal.fin (a / b)
  | FVal.fin _, FVal.inf => FVal.fin 0
  | FVal.inf, FVal.fin _ => FVal.inf
  | FVal.inf, FVal.inf => FVal.nan
  | FVal.nan, _ => FVal.nan
  | _, FVal.nan => FVal.nan

/-- The integral part of a rational (the fractional part discarded, as a C conversion
to an integer type does). -/
def truncQ (q : ℚ) : Int := if 0 ≤ q then ⌊q⌋ else ⌈q⌉

/-- What the C library, the RTOS and the compiler's target contribute to a call.
`pdMS_TO_TICKS` is the FreeRTOS macro (its header is not part of the sources).
`oor_uint32` and `oor_int` give the result of converting a floating-point value
whose integral part the target type cannot represent (or an infinity, or a NaN);
the C standard leaves it undefined and targets differ. -/
structure Platform where
  pdMS_TO_TICKS : Nat → Nat
  oor_uint32 : FVal → Nat
  oor_int : FVal → Int

/-- The conversion `(uint32_t)v`. -/
def to_uint32 (P : Platform) (v : FVal) : Nat :=
  match v with
  | FVal.fin q => if 0 ≤ truncQ q ∧ truncQ q < 4294967296 then (truncQ q).toNat else P.oor_uint32 v
  | _ => P.oor_uint32 v

/-- The conversion `(int)v`, for the 32-bit `int` of the firmware's targets. -/
def to_int (P : Platform) (v : FVal) : Int :=
  match v with
  | FVal.fin q => if -2147483648 ≤ truncQ q ∧ truncQ q < 2147483648 then truncQ q else P.oor_int v
  | _ => P.oor_int v

/-- Subtraction of two `uint32_t` tick counts. -/
def sub32 (a b : Nat) : Nat := (a % 4294967296 + (4294967296 - b % 4294967296)) % 4294967296

/-- The local `expected_hashrate_ghs` of `ASIC_process_work`:
`simulated_frequency * small_core_count * asic_count / 1000.0`. -/
def expected_hashrate_ghs (sim : SimState) (G : GlobalState) : FVal :=
  FVal.div
    (FVal.mul
      (FVal.mul (FVal.fin sim.simulated_frequency)
        (FVal.fin (G.DEVICE_CONFIG.family.asic.small_core_count : ℚ)))
      (FVal.fin (G.DEVICE_CONFIG.family.asic_count : ℚ)))
    (FVal.fin 1000)

/-- The local `results_per_second`:
`(expected_hashrate_ghs * 1e9) / (difficulty * 4294967296.0)`. -/
def results_per_second (sim : SimState) (G : GlobalState) : FVal :=
  FVal.div
    (FVal.mul (expected_hashrate_ghs sim G) (FVal.fin 1000000000))
    (FVal.mul (FVal.fin (G.DEVICE_CONFIG.family.asic.difficulty : ℚ)) (FVal.fin 4294967296))

/-- The local `cooldown_seconds`: `1.0 / results_per_second`. -/
def cooldown_seconds (sim : SimState) (G : GlobalState) : FVal :=
  FVal.div (FVal.fin 1) (results_per_second sim G)

/-- The two statements bounding `min_cooldown_ms`:
`if (ms < 500) ms = 500; if (ms > 10000) ms = 10000;`. -/
def clamp_cooldown (ms : Nat) : Nat :=
  let ms1 := if ms < 500 then 500 else ms
  if ms1 > 10000 then 10000 else ms1

/-- The local `min_cooldown_ms`: `(uint32_t)(cooldown_seconds * 1000.0)`, then bounded. -/
def min_cooldown_ms (P : Platform) (sim : SimState) (G : GlobalState) : Nat :=
  clamp_cooldown (to_uint32 P (FVal.mul (cooldown_seconds sim G) (FVal.fin 1000)))

/-- The two statements bounding `result_probability`:
`if (p < 1) p = 1; if (p > 50) p = 50;`. -/
def clamp_probability (p : Int) : Int :=
  let p1 := if p < 1 then 1 else p
  if p1 > 50 then 50 else p1

/-- The local `result_probability`:
`(int)(results_per_second / calls_per_second * 100.0)` with `calls_per_second = 10.0`,
then bounded. -/
def result_probability (P : Platform) (sim : SimState) (G : GlobalState) : Int :=
  clamp_probability
    (to_int P (FVal.mul (FVal.div (results_per_second sim G) (FVal.fin 10)) (FVal.fin 100)))

/-- The block of `ASIC_process_work` that logs the expected performance at most every
30 seconds: apart from the log line it only updates the static `last_log_time`. -/
def World.log_performance (w : World) (P : Platform) (current_time : Nat) : World :=
  if sub32 current_time w.sim.last_log_time > P.pdMS_TO_TICKS 30000 then
    { w with sim := { w.sim with last_log_time := current_time } }
  else w

/-- What a call of `ASIC_process_work` gives back: the returned pointer (`none` for
`NULL`, otherwise the contents of `simulated_result` at the return), the world after
the call, the number of calls of `rand()` it made, and whether it called
`vTaskDelay(1)`. -/
structure PollOutcome where
  result : Option task_result
  w : World
  rand_calls : Nat
  yielded : Bool

/-- The function `ASIC_process_work(GLOBAL_STATE)`.  `tick` is the scheduler's tick
count at the call (`xTaskGetTickCount()` returns it as a `uint32_t`); `r1`, `r2`, `r3`
are the values the first, second and third call of `rand()` would return. -/
def ASIC_process_work (P : Platform) (tick : Nat) (r1 r2 r3 : Nat) (w : World) : PollOutcome :=
  match w.G.active_jobs, w.G.valid_jobs with
  | some _, some _ =>
    let current_time : Nat := tick % 4294967296
    if sub32 current_time w.sim.last_result_time
        < P.pdMS_TO_TICKS (min_cooldown_ms P w.sim w.G) then
      { result := none, w := w, rand_calls := 0, yielded := true }
    else
      let w1 : World := w.log_performance P current_time
      let found : Bool := decide ((r1 % 100 : Int) < result_probability P w.sim w.G)
      let w2 : World :=
        if found then
          { w1 with sim := { w1.sim with
              simulated_result :=
                { job_id := w1.sim.simulated_job_id_counter % 128,
                  nonce := r2 % 4294967296,
                  rolled_version := 0x20000000 ||| (r3 &&& 0x1FFF) },
              has_pending_result := true,
              last_result_time := current_time } }
        else w1
      if w2.sim.has_pending_result then
        { result := some w2.sim.simulated_result,
          w := { w2 with sim := { w2.sim with has_pending_result := false } },
          rand_calls := if found then 3 else 1,
          yielded := false }
      else
        { result := none, w := w2, rand_calls := if found then 3 else 1, yielded := true }
  | _, _ => { result := none, w := w, rand_calls := 0, yielded := false }

/-- A sequence of polls, each given as (tick, r1, r2, r3): the tick and the result of
every call, in order. -/
def pollAll (P : Platform) (w : World) :
    List (Nat × Nat × Nat × Nat) → List (Nat × Option task_result)
  | [] => []
  | (tick, r1, r2, r3) :: rest =>
    (tick, (ASIC_process_work P tick r1 r2 r3 w).result)
      :: pollAll P (ASIC_process_work P tick r1 r2 r3 w).w rest

/-- The cooldown as the specification words it, in exact arithmetic:
1000 / expected_results_per_second, truncated to whole milliseconds and clamped to
[500, 10000], with expected_results_per_second
= (frequency * cores * chips / 1000 * 1e9) / (difficulty * 2^32). -/
def spec_min_cooldown_ms (frequency : ℚ) (cores chips difficulty : Nat) : Int :=
  max 500 (min 10000
    (truncQ (1000 / ((frequency * cores * chips / 1000 * 1000000000)
      / (difficulty * 4294967296)))))

/-- The largest value of the C type `int` on the firmware's targets (32 bits).
`rand()` returns an `int` between 0 and `RAND_MAX`, and `RAND_MAX` is at most this. -/
def INT_MAX : Nat := 2147483647

/-- An example platform: 1000 ticks per second, and out-of-range conversions as the
x86-64 conversion instructions perform them (`uint32_t`: the low 32 bits of the
integral part when it fits 64 bits, otherwise 0; `int`: the most negative value). -/
def hostPlatform : Platform where
  pdMS_TO_TICKS := fun ms => ms * 1000 / 1000
  oor_uint32 := fun v =>
    match v with
    | FVal.fin q =>
      if -9223372036854775808 ≤ truncQ q ∧ truncQ q < 9223372036854775808
      then (truncQ q % 4294967296).toNat else 0
    | _ => 0
  oor_int := fun _ => -2147483648

/-- A `GlobalState` with both arrays allocated and empty, and the given device profile. -/
def profileState (default_frequency_mhz small_core_count asic_count difficulty : Nat) :
    GlobalState :=
  { active_jobs := some emptyTable,
    valid_jobs := some clearBitmap,
    DEVICE_CONFIG :=
      { family :=
          { asic := { default_frequency_mhz := default_frequency_mhz,
                      small_core_count := small_core_count,
                      difficulty := difficulty },
            asic_count := asic_count } } }

/-! ## Initialisation, parameter setters and runs of the engine -/

/-- The function `ASIC_init(GLOBAL_STATE)`; `r` is the value `rand()` returns after the
generator has been seeded.  The initialisation of `valid_jobs_lock` changes nothing of
the modelled state.  Returns `simulated_chip_count` (a `uint8_t`). -/
def ASIC_init (r : Nat) (w : World) : Nat × World :=
  let chips : Nat := (1 + r % 3) % 256
  (chips,
   { w with sim := { w.sim with
      simulated_chip_count := chips,
      simulated_frequency := (w.G.DEVICE_CONFIG.family.asic.default_frequency_mhz : ℚ) } })

/-- The function `ASIC_set_max_baud(GLOBAL_STATE)`. -/
def ASIC_set_max_baud (w : World) : Int × World :=
  (1000000, { w with sim := { w.sim with simulated_baud_rate := 1000000 } })

/-- The function `ASIC_set_version_mask(GLOBAL_STATE, mask)`. -/
def ASIC_set_version_mask (w : World) (mask : Nat) : World :=
  { w with sim := { w.sim with simulated_version_mask := mask } }

/-- The function `ASIC_set_frequency(GLOBAL_STATE, target_frequency)`. -/
def ASIC_set_frequency (w : World) (target_frequency : ℚ) : Bool × World :=
  (true, { w with sim := { w.sim with simulated_frequency := target_frequency } })

/-- One call of a public operation of the engine, with the inputs it takes from its
caller and its environment. -/
inductive Op where
  | init (r : Nat)
  | send_work (lock_result : Int) (next_job : Option JobRef)
  | process_work (tick : Nat) (r1 r2 r3 : Nat)
  | set_max_baud
  | set_version_mask (mask : Nat)
  | set_frequency (target_frequency : ℚ)
  /-- Between two calls of the engine the firmware changes `GlobalState`: the arrays
  are allocated and freed by `ASIC_task`, not by the simulation, and the device
  profile is the firmware's.  `G` is the `GlobalState` the next call is handed. -/
  | firmware (G : GlobalState)

/-- The world after one operation. -/
def step (P : Platform) (w : World) : Op → World
  | Op.init r => (ASIC_init r w).2
  | Op.send_work lock_result next_job => ASIC_send_work lock_result w next_job
  | Op.process_work tick r1 r2 r3 => (ASIC_process_work P tick r1 r2 r3 w).w
  | Op.set_max_baud => (ASIC_set_max_baud w).2
  | Op.set_version_mask mask => ASIC_set_version_mask w mask
  | Op.set_frequency f => (ASIC_set_frequency w f).2
  | Op.firmware G => { w with G := G }

/-- The world after a sequence of operations. -/
def run (P : Platform) (w : World) : List Op → World
  | [] => w
  | op :: ops => run P (step P w op) ops

/-- The initial world: the statics with their initialisers, no effect performed yet,
and the `GlobalState` the firmware hands to the engine. -/
def initialWorld (G : GlobalState) : World := { G := G, sim := {}, trace := [] }

/-- The invariant of the engine: the job-id counter is below 128 and no result is
pending between calls. -/
def EngineInv (w : World) : Prop :=
  w.sim.simulated_job_id_counter < 128 ∧
  w.sim.has_pending_result = false

/-- Rounding of a rational to the nearest integer, a tie going to the even one. -/
def roundHalfEven (y : ℚ) : Int :=
  if y - (⌊y⌋ : ℚ) < 1 / 2 then ⌊y⌋
  else if 1 / 2 < y - (⌊y⌋ : ℚ) then ⌊y⌋ + 1
  else if ⌊y⌋ % 2 = 0 then ⌊y⌋ else ⌊y⌋ + 1

/-- The power of two at or below a positive `x`: the start of its binade. -/
def binade (x : ℚ) : ℚ := (2 : ℚ) ^ Int.log 2 x

/-- The unit in the last place of the binary32 values of the binade of a positive `x`:
24 significant bits, so 2^-23 of the start of the binade. -/
def ulp32 (x : ℚ) : ℚ := (2 : ℚ) ^ (Int.log 2 x - 23)

/-- Rounding of a positive rational to 24 significant bits. -/
def roundPos32 (x : ℚ) : ℚ := (roundHalfEven (x / ulp32 x) : ℚ) * ulp32 x

/-- Rounding to binary32: sign and rounded magnitude. -/
def round32 (x : ℚ) : ℚ :=
  if 0 < x then roundPos32 x else if x < 0 then -roundPos32 (-x) else 0

/-- A value of type `float`: a rational that rounding to binary32 leaves unchanged. -/
def binary32 (x : ℚ) : Prop := round32 x = x

/-- Whether a rational is a binary32 value can be computed. -/
instance binary32_decidable (x : ℚ) : Decidable (binary32 x) := by
  unfold binary32
  infer_instance

/-- The binary32 value of the literal `0.002f`. -/
def lit_0_002f : ℚ := round32 (2 / 1000)

/-- The subexpression `(float)rand() / RAND_MAX - 0.5f` of the jitter expressions:
`r` is the value `rand()` returns and `RAND_MAX` the constant of the C library
(positive on every implementation: at least 32767), an `int` converted to `float`
for the division. -/
def centered_draw (RAND_MAX r : Nat) : ℚ :=
  round32 (round32 (round32 (r : ℚ) / round32 (RAND_MAX : ℚ)) - 1 / 2)

/-! ## The job-pacing estimator `ASIC_get_asic_job_frequency_ms` -/

/-- The local `varied_frequency`, a `float`:
`simulated_frequency + simulated_frequency * (((float)rand() / RAND_MAX - 0.5f) * 0.002f)`,
each operation rounded to binary32. -/
def varied_frequency (RAND_MAX r : Nat) (sim : SimState) : ℚ :=
  round32 (sim.simulated_frequency
    + round32 (sim.simulated_frequency
        * round32 (centered_draw RAND_MAX r * lit_0_002f)))

/-- The two bounding statements of `ASIC_get_asic_job_frequency_ms` on a finite value. -/
def clamp_100_5000 (q : ℚ) : ℚ :=
  let q1 := if q < 100 then 100 else q
  if q1 > 5000 then 5000 else q1

/-- The two statements bounding `job_freq_ms`:
`if (x < 100.0) x = 100.0; if (x > 5000.0) x = 5000.0;`.  A NaN passes both
comparisons unchanged; for an infinity the outcome depends on its sign, which `FVal`
does not track and `inf_negative` supplies. -/
def clamp_job_freq (inf_negative : Bool) (v : FVal) : FVal :=
  match v with
  | FVal.fin q => FVal.fin (clamp_100_5000 q)
  | FVal.inf => if inf_negative then FVal.fin 100 else FVal.fin 5000
  | FVal.nan => FVal.nan

/-- The part of `ASIC_get_asic_job_frequency_ms` after the jitter, in `double`:
`base_job_time_ms = 1000.0 * (400.0 / varied_frequency)`,
`job_freq_ms = base_job_time_ms / simulated_chip_count`, then the bounds. -/
def job_freq_ms_of (inf_negative : Bool) (varied : ℚ) (chip_count : Nat) : FVal :=
  clamp_job_freq inf_negative
    (FVal.div (FVal.mul (FVal.fin 1000) (FVal.div (FVal.fin 400) (FVal.fin varied)))
      (FVal.fin (chip_count : ℚ)))

/-- The function `ASIC_get_asic_job_frequency_ms(GLOBAL_STATE)`; it makes one call of
`rand()` (returning `r`) and changes no state. -/
def ASIC_get_asic_job_frequency_ms (RAND_MAX r : Nat) (inf_negative : Bool) (w : World) : FVal :=
  job_freq_ms_of inf_negative (varied_frequency RAND_MAX r w.sim) w.sim.simulated_chip_count

/-! ## The DS4432U current DAC simulation (`ds4432u_sim.c`) -/

/-- The success code of ESP-IDF's `esp_err_t`. -/
def ESP_OK : Int := 0

/-- The generic failure code of ESP-IDF's `esp_err_t`. -/
def ESP_FAIL : Int := -1

/-- The statics of `ds4432u_sim.c`: the two `uint8_t` output codes. -/
structure DS4432UState where
  simulated_out0_code : Nat := 0
  simulated_out1_code : Nat := 0
  deriving DecidableEq, Repr

/-- The function `DS4432U_set_current_code(output, code)` with its `uint8_t` arguments:
the returned code and the statics afterwards. -/
def DS4432U_set_current_code (s : DS4432UState) (output code : Nat) : Int × DS4432UState :=
  if output = 0 then
    (ESP_OK, { s with simulated_out0_code := code % 256 })
  else if output = 1 then
    (ESP_OK, { s with simulated_out1_code := code % 256 })
  else
    (ESP_FAIL, s)

/-- The function `DS4432U_get_current_code(output, code)`: the returned code and the
value written through the pointer `code` (`none` when nothing is written). -/
def DS4432U_get_current_code (s : DS4432UState) (output : Nat) : Int × Option Nat :=
  if output = 0 then
    (ESP_OK, some s.simulated_out0_code)
  else if output = 1 then
    (ESP_OK, some s.simulated_out1_code)
  else
    (ESP_FAIL, none)

/-- The macro `BITAXE_IFS`. -/
def BITAXE_IFS : ℚ := 98921 / 1000000000

/-- The macro `BITAXE_RA`. -/
def BITAXE_RA : ℚ := 4750

/-- The macro `BITAXE_RB`. -/
def BITAXE_RB : ℚ := 3320

/-- The macro `BITAXE_VNOM`. -/
def BITAXE_VNOM : ℚ := 1451 / 1000

/-- The macro `BITAXE_VMAX`. -/
def BITAXE_VMAX : ℚ := 239 / 100

/-- The macro `BITAXE_VMIN`. -/
def BITAXE_VMIN : ℚ := 46 / 1000

/-- The macro `TPS40305_VFB`. -/
def TPS40305_VFB : ℚ := 6 / 10

/-- The local `change` of `DS4432U_set_voltage`:
`fabs((((VFB / RB) - ((vout - VFB) / RA)) / IFS) * 127)`. -/
def DS4432U_change (vout : ℚ) : ℚ :=
  |(((TPS40305_VFB / BITAXE_RB) - ((vout - TPS40305_VFB) / BITAXE_RA)) / BITAXE_IFS) * 127|

/-- The function `DS4432U_set_voltage(vout)`.  `oor_uint8` is what the platform makes of
the conversion `(uint8_t)ceil(change)` when the value exceeds 255 (undefined in C). -/
def DS4432U_set_voltage (oor_uint8 : Nat) (s : DS4432UState) (vout : ℚ) :
    Int × DS4432UState :=
  if vout > BITAXE_VMAX ∨ vout < BITAXE_VMIN then
    (ESP_FAIL, s)
  else
    let change : ℚ := DS4432U_change vout
    let reg0 : Nat := if ⌈change⌉ < 256 then ⌈change⌉.toNat else oor_uint8 % 256
    let reg : Nat := if vout < BITAXE_VNOM then reg0 ||| 0x80 else reg0
    DS4432U_set_current_code s 0 reg

/-! ## The ADC simulation (`adc_sim.c`) -/

/-- The function `ADC_get_vcore()`.  `configured_voltage_mv` is the `uint16_t` that
`nvs_config_get_u16(NVS_CONFIG_ASIC_VOLTAGE, 1166)` returns and `random` the `uint32_t`
that `esp_random()` returns.  `variation` is `(random % 21) - 10` as an `int16_t`
(between -10 and 10); the sum is formed in `int` and the chosen value is converted to
the `uint16_t` result. -/
def ADC_get_vcore (configured_voltage_mv random : Nat) : Nat :=
  let variation : Int := ((random % 4294967296 % 21 : Nat) : Int) - 10
  if (configured_voltage_mv : Int) + variation > 0 then
    (((configured_voltage_mv : Int) + variation) % 65536).toNat
  else
    configured_voltage_mv

/-! ## The TPS546 voltage regulator simulation (`tps546_sim.c`) -/

/-- Reducing a counter value modulo 128 first does not change the slot it addresses. -/
theorem slotOf_mod (c : Nat) : slotOf (c % 128) = slotOf c := by
  simp [slotOf]

/-- The effect of a submission on allocated arrays, spelled out. -/
theorem ASIC_send_work_allocated (lock_result : Int) (w : World) (job : JobRef)
    (jobs : Fin SLOTS → Option JobRef) (valid : Fin SLOTS → Nat)
    (hj : w.G.active_jobs = some jobs) (hv : w.G.valid_jobs = some valid) :
    ASIC_send_work lock_result w (some job) =
      { G := { w.G with
                active_jobs := some (Function.update jobs
                  (slotOf (w.sim.simulated_job_id_counter + 1)) (some job)),
                valid_jobs := some (Function.update valid
                  (slotOf (w.sim.simulated_job_id_counter + 1)) 1) },
        sim := { w.sim with
                  simulated_job_id_counter := (w.sim.simulated_job_id_counter + 1) % 128 },
        trace := w.trace
          ++ releaseOf (slotOf (w.sim.simulated_job_id_counter + 1))
              (jobs (slotOf (w.sim.simulated_job_id_counter + 1)))
          ++ [Event.storeJob (slotOf (w.sim.simulated_job_id_counter + 1)) job,
              Event.lock lock_result,
              Event.setValid (slotOf (w.sim.simulated_job_id_counter + 1))]
          ++ (if lock_result = 0 then [Event.unlock] else []) } := by
  obtain ⟨G, sim, trace⟩ := w
  obtain ⟨aj, vj, dc⟩ := G
  simp only at hj hv
  subst hj hv
  simp only [ASIC_send_work]
  by_cases hl : lock_result = 0 <;>
    cases hocc : jobs (slotOf (sim.simulated_job_id_counter + 1)) <;>
    simp [hl, World.emit, World.free_job, World.write_active_jobs,
      World.write_valid_jobs, slotOf, releaseOf]

/-- The effects of one submission on allocated arrays, in program order. -/
theorem newEvents_send_work_allocated (lock_result : Int) (w : World) (job : JobRef)
    (jobs : Fin SLOTS → Option JobRef) (valid : Fin SLOTS → Nat)
    (hj : w.G.active_jobs = some jobs) (hv : w.G.valid_jobs = some valid) :
    newEvents w (ASIC_send_work lock_result w (some job)) =
      releaseOf (slotOf (w.sim.simulated_job_id_counter + 1))
          (jobs (slotOf (w.sim.simulated_job_id_counter + 1)))
        ++ [Event.storeJob (slotOf (w.sim.simulated_job_id_counter + 1)) job,
            Event.lock lock_result,
            Event.setValid (slotOf (w.sim.simulated_job_id_counter + 1))]
        ++ (if lock_result = 0 then [Event.unlock] else []) := by
  rw [ASIC_send_work_allocated lock_result w job jobs valid hj hv]
  simp [newEvents, List.append_assoc]

/-- The effect of a submission when one of the two arrays is a null pointer. -/
theorem ASIC_send_work_absent (lock_result : Int) (w : World) (job : JobRef)
    (h : w.G.active_jobs = none ∨ w.G.valid_jobs = none) :
    ASIC_send_work lock_result w (some job) =
      { w with sim := { w.sim with
          simulated_job_id_counter := (w.sim.simulated_job_id_counter + 1) % 128 } } := by
  obtain ⟨G, sim, trace⟩ := w
  obtain ⟨aj, vj, dc⟩ := G
  simp only at h
  simp only [ASIC_send_work]
  rcases h with h | h
  · subst h
    simp [slotOf]
  · subst h
    cases aj <;> simp [slotOf]

/-- A submission with a null array performs no memory or lock effect. -/
theorem newEvents_send_work_absent (lock_result : Int) (w : World) (job : JobRef)
    (h : w.G.active_jobs = none ∨ w.G.valid_jobs = none) :
    newEvents w (ASIC_send_work lock_result w (some job)) = [] := by
  rw [ASIC_send_work_absent lock_result w job h]
  simp [newEvents]

/-- C1: with both arrays allocated and a non-null job `job`, after
`ASIC_send_work` the job-id counter is (old counter + 1) mod 128, the Job Slot
Table entry at the new counter value is exactly `job`, and the Validity Bitmap
flag at that index is 1, whatever `pthread_mutex_lock` returned. -/
theorem C1_send_work_stores_and_validates (lock_result : Int) (w : World) (job : JobRef)
    (jobs : Fin SLOTS → Option JobRef) (valid : Fin SLOTS → Nat)
    (hj : w.G.active_jobs = some jobs) (hv : w.G.valid_jobs = some valid) :
    (ASIC_send_work lock_result w (some job)).sim.simulated_job_id_counter
        = (w.sim.simulated_job_id_counter + 1) % 128 ∧
    ∃ jobs2 valid2,
      (ASIC_send_work lock_result w (some job)).G.active_jobs = some jobs2 ∧
      (ASIC_send_work lock_result w (some job)).G.valid_jobs = some valid2 ∧
      jobs2 (slotOf (ASIC_send_work lock_result w (some job)).sim.simulated_job_id_counter)
        = some job ∧
      valid2 (slotOf (ASIC_send_work lock_result w (some job)).sim.simulated_job_id_counter)
        = 1 := by
  rw [ASIC_send_work_allocated lock_result w job jobs valid hj hv]
  refine ⟨rfl, _, _, rfl, rfl, ?_, ?_⟩
  · show Function.update jobs (slotOf (w.sim.simulated_job_id_counter + 1)) (some job)
      (slotOf ((w.sim.simulated_job_id_counter + 1) % 128)) = some job
    rw [slotOf_mod, Function.update_same]
  · show Function.update valid (slotOf (w.sim.simulated_job_id_counter + 1)) 1
      (slotOf ((w.sim.simulated_job_id_counter + 1) % 128)) = 1
    rw [slotOf_mod, Function.update_same]

/-- C1 at a concrete input: counter 127 wraps to slot 0, which then holds job 42
and is flagged valid. -/
theorem C1_send_work_stores_and_validates_witness :
    (ASIC_send_work 0 (allocated emptyTable clearBitmap 127) (some 42)).sim.simulated_job_id_counter
        = (127 + 1) % 128 ∧
    ∃ jobs2 valid2,
      (ASIC_send_work 0 (allocated emptyTable clearBitmap 127) (some 42)).G.active_jobs
        = some jobs2 ∧
      (ASIC_send_work 0 (allocated emptyTable clearBitmap 127) (some 42)).G.valid_jobs
        = some valid2 ∧
      jobs2 (slotOf (ASIC_send_work 0 (allocated emptyTable clearBitmap 127)
        (some 42)).sim.simulated_job_id_counter) = some 42 ∧
      valid2 (slotOf (ASIC_send_work 0 (allocated emptyTable clearBitmap 127)
        (some 42)).sim.simulated_job_id_counter) = 1 :=
  C1_send_work_stores_and_validates 0 (allocated emptyTable clearBitmap 127) 42
    emptyTable clearBitmap rfl rfl

/-- C2: `ASIC_send_work` with a null job returns the world it was given: the
job-id counter, both arrays, every other engine parameter and the trace of
effects (so no release) are unchanged. -/
theorem C2_send_work_null_is_noop (lock_result : Int) (w : World) :
    ASIC_send_work lock_result w none = w := rfl

/-- C3: with both arrays allocated and a non-null job, every slot other than
(old counter + 1) mod 128 keeps its Job Slot Table entry and its Validity
Bitmap flag. -/
theorem C3_send_work_frame (lock_result : Int) (w : World) (job : JobRef)
    (jobs : Fin SLOTS → Option JobRef) (valid : Fin SLOTS → Nat)
    (hj : w.G.active_jobs = some jobs) (hv : w.G.valid_jobs = some valid) :
    ∃ jobs2 valid2,
      (ASIC_send_work lock_result w (some job)).G.active_jobs = some jobs2 ∧
      (ASIC_send_work lock_result w (some job)).G.valid_jobs = some valid2 ∧
      ∀ i : Fin SLOTS, i.val ≠ (w.sim.simulated_job_id_counter + 1) % 128 →
        jobs2 i = jobs i ∧ valid2 i = valid i := by
  rw [ASIC_send_work_allocated lock_result w job jobs valid hj hv]
  refine ⟨_, _, rfl, rfl, ?_⟩
  intro i hi
  have hne : i ≠ slotOf (w.sim.simulated_job_id_counter + 1) := by
    intro h
    apply hi
    rw [h]
    rfl
  exact ⟨Function.update_noteq hne _ _, Function.update_noteq hne _ _⟩

/-- C3 at a concrete input: a submission at counter 4 writes slot 5 only. -/
theorem C3_send_work_frame_witness :
    ∃ jobs2 valid2,
      (ASIC_send_work 0 (allocated (Function.update emptyTable 9 (some 3)) clearBitmap 4)
        (some 42)).G.active_jobs = some jobs2 ∧
      (ASIC_send_work 0 (allocated (Function.update emptyTable 9 (some 3)) clearBitmap 4)
        (some 42)).G.valid_jobs = some valid2 ∧
      ∀ i : Fin SLOTS, i.val ≠ (4 + 1) % 128 →
        jobs2 i = Function.update emptyTable 9 (some 3) i ∧ valid2 i = clearBitmap i :=
  C3_send_work_frame 0 (allocated (Function.update emptyTable 9 (some 3)) clearBitmap 4) 42
    (Function.update emptyTable 9 (some 3)) clearBitmap rfl rfl

/-- C4: with both arrays allocated and a non-null job, whatever value
`lock_result` the call to `pthread_mutex_lock` returns (in particular a non-zero
error), the counter, Job Slot Table and Validity Bitmap after the call are those
of the call in which it returns 0, and in both the flag of the target slot is 1. -/
theorem C4_lock_failure_same_state (lock_result : Int) (w : World) (job : JobRef)
    (jobs : Fin SLOTS → Option JobRef) (valid : Fin SLOTS → Nat)
    (hj : w.G.active_jobs = some jobs) (hv : w.G.valid_jobs = some valid) :
    (ASIC_send_work lock_result w (some job)).G = (ASIC_send_work 0 w (some job)).G ∧
    (ASIC_send_work lock_result w (some job)).sim = (ASIC_send_work 0 w (some job)).sim ∧
    ∃ valid2,
      (ASIC_send_work lock_result w (some job)).G.valid_jobs = some valid2 ∧
      (ASIC_send_work 0 w (some job)).G.valid_jobs = some valid2 ∧
      valid2 (slotOf (w.sim.simulated_job_id_counter + 1)) = 1 := by
  rw [ASIC_send_work_allocated lock_result w job jobs valid hj hv,
    ASIC_send_work_allocated 0 w job jobs valid hj hv]
  exact ⟨rfl, rfl, _, rfl, rfl, Function.update_same _ _ _⟩

/-- C4 at a concrete input: lock result 22 (EINVAL) against lock result 0. -/
theorem C4_lock_failure_same_state_witness :
    (ASIC_send_work 22 (allocated emptyTable clearBitmap 4) (some 42)).G
      = (ASIC_send_work 0 (allocated emptyTable clearBitmap 4) (some 42)).G ∧
    (ASIC_send_work 22 (allocated emptyTable clearBitmap 4) (some 42)).sim
      = (ASIC_send_work 0 (allocated emptyTable clearBitmap 4) (some 42)).sim ∧
    ∃ valid2,
      (ASIC_send_work 22 (allocated emptyTable clearBitmap 4) (some 42)).G.valid_jobs
        = some valid2 ∧
      (ASIC_send_work 0 (allocated emptyTable clearBitmap 4) (some 42)).G.valid_jobs
        = some valid2 ∧
      valid2 (slotOf (4 + 1)) = 1 :=
  C4_lock_failure_same_state 22 (allocated emptyTable clearBitmap 4) 42
    emptyTable clearBitmap rfl rfl

/-- C5: when the Job Slot Table or the Validity Bitmap is a null pointer,
`ASIC_send_work` with a non-null job changes nothing but the job-id counter,
which becomes (old counter + 1) mod 128: `GlobalState` (so every entry of the
array that is present) and the trace of effects (so no store and no release)
are as before. -/
theorem C5_send_work_absent_arrays (lock_result : Int) (w : World) (job : JobRef)
    (h : w.G.active_jobs = none ∨ w.G.valid_jobs = none) :
    ASIC_send_work lock_result w (some job) =
      { w with sim := { w.sim with
          simulated_job_id_counter := (w.sim.simulated_job_id_counter + 1) % 128 } } ∧
    (ASIC_send_work lock_result w (some job)).G = w.G ∧
    (ASIC_send_work lock_result w (some job)).trace = w.trace := by
  rw [ASIC_send_work_absent lock_result w job h]
  exact ⟨rfl, rfl, rfl⟩

/-- C5 at a concrete input: the table holds job 3 in slot 9 and the bitmap is a
null pointer. -/
theorem C5_send_work_absent_arrays_witness :
    ASIC_send_work 0
        { G := { active_jobs := some (Function.update emptyTable 9 (some 3)) },
          sim := { simulated_job_id_counter := 127 } } (some 42) =
      { G := { active_jobs := some (Function.update emptyTable 9 (some 3)) },
        sim := { simulated_job_id_counter := (127 + 1) % 128 } } ∧
    (ASIC_send_work 0
        { G := { active_jobs := some (Function.update emptyTable 9 (some 3)) },
          sim := { simulated_job_id_counter := 127 } } (some 42)).G =
      { active_jobs := some (Function.update emptyTable 9 (some 3)) } ∧
    (ASIC_send_work 0
        { G := { active_jobs := some (Function.update emptyTable 9 (some 3)) },
          sim := { simulated_job_id_counter := 127 } } (some 42)).trace = [] :=
  C5_send_work_absent_arrays 0
    { G := { active_jobs := some (Function.update emptyTable 9 (some 3)) },
      sim := { simulated_job_id_counter := 127 } } 42 (Or.inr rfl)

/-- A submission of the null job returns the world it was given. -/
theorem ASIC_send_work_null (lock_result : Int) (w : World) :
    ASIC_send_work lock_result w none = w := rfl

/-- A call that returns the world it was given added no effect. -/
theorem newEvents_self (w : World) : newEvents w w = [] := by
  simp [newEvents]

/-- The releases of a concatenation are the releases of its parts. -/
theorem released_append (l1 l2 : List Event) :
    released (l1 ++ l2) = released l1 ++ released l2 := by
  induction l1 with
  | nil => rfl
  | cons e es ih => cases e <;> simp [released, ih]

/-- The release performed on a slot releases exactly its prior occupant. -/
theorem released_releaseOf (slot : Fin SLOTS) (o : Option JobRef) :
    released (releaseOf slot o) = o.toList := by
  cases o <;> rfl

/-- C6, evaluated on the code where the claim fails: with both arrays null (the
`GlobalState` of `test_asic_simulation`), after `ASIC_send_work` with a non-null
job the job is not held by the Job Slot Table and the call released nothing;
only the counter moved. -/
theorem C6_null_arrays_job_neither_stored_nor_released (lock_result : Int) (job : JobRef)
    (sim : SimState) (trace : List Event) :
    holdsJob (ASIC_send_work lock_result { G := {}, sim := sim, trace := trace } (some job)).G job
      = false ∧
    released (newEvents { G := {}, sim := sim, trace := trace }
      (ASIC_send_work lock_result { G := {}, sim := sim, trace := trace } (some job))) = [] ∧
    (ASIC_send_work lock_result { G := {}, sim := sim, trace := trace }
      (some job)).sim.simulated_job_id_counter = (sim.simulated_job_id_counter + 1) % 128 := by
  rw [newEvents_send_work_absent lock_result _ job (Or.inl rfl),
    ASIC_send_work_absent lock_result _ job (Or.inl rfl)]
  exact ⟨rfl, rfl, rfl⟩

/-- C7: with both arrays allocated and a non-null job, the references released by
`ASIC_send_work` are exactly the prior occupant of slot (old counter + 1) mod 128
when that slot is occupied and none when it is empty; every `free` of the call is
a `free` of that slot, so the occupant of another slot (a reference other than the
target slot's) is not released; and the effects of the call are that release, then
the store of the new reference into the slot, then effects that release nothing. -/
theorem C7_send_work_releases_prior_occupant (lock_result : Int) (w : World) (job : JobRef)
    (jobs : Fin SLOTS → Option JobRef) (valid : Fin SLOTS → Nat)
    (hj : w.G.active_jobs = some jobs) (hv : w.G.valid_jobs = some valid) :
    released (newEvents w (ASIC_send_work lock_result w (some job)))
      = (jobs (slotOf (w.sim.simulated_job_id_counter + 1))).toList ∧
    (∀ k p, Event.free k p ∈ newEvents w (ASIC_send_work lock_result w (some job)) →
      k = slotOf (w.sim.simulated_job_id_counter + 1) ∧
      jobs (slotOf (w.sim.simulated_job_id_counter + 1)) = some p) ∧
    (∀ k p, jobs k = some p → jobs (slotOf (w.sim.simulated_job_id_counter + 1)) ≠ some p →
      p ∉ released (newEvents w (ASIC_send_work lock_result w (some job)))) ∧
    ∃ post,
      newEvents w (ASIC_send_work lock_result w (some job))
        = releaseOf (slotOf (w.sim.simulated_job_id_counter + 1))
            (jobs (slotOf (w.sim.simulated_job_id_counter + 1)))
          ++ Event.storeJob (slotOf (w.sim.simulated_job_id_counter + 1)) job :: post ∧
      released post = [] := by
  rw [newEvents_send_work_allocated lock_result w job jobs valid hj hv]
  have hrel : released (releaseOf (slotOf (w.sim.simulated_job_id_counter + 1))
          (jobs (slotOf (w.sim.simulated_job_id_counter + 1)))
        ++ [Event.storeJob (slotOf (w.sim.simulated_job_id_counter + 1)) job,
            Event.lock lock_result,
            Event.setValid (slotOf (w.sim.simulated_job_id_counter + 1))]
        ++ (if lock_result = 0 then [Event.unlock] else []))
      = (jobs (slotOf (w.sim.simulated_job_id_counter + 1))).toList := by
    rw [List.append_assoc, released_append, released_releaseOf]
    by_cases hl : lock_result = 0 <;> simp [hl, released]
  refine ⟨hrel, ?_, ?_, ?_⟩
  · intro k p hmem
    cases hocc : jobs (slotOf (w.sim.simulated_job_id_counter + 1)) with
    | none =>
      rw [hocc] at hmem
      by_cases hl : lock_result = 0 <;> simp [hl, releaseOf] at hmem
    | some old =>
      rw [hocc] at hmem
      by_cases hl : lock_result = 0 <;> simp [hl, releaseOf] at hmem <;>
        exact ⟨hmem.1, by rw [hmem.2]⟩
  · intro k p _ hne hmem
    rw [hrel, Option.mem_toList] at hmem
    exact hne hmem
  · refine ⟨[Event.lock lock_result,
        Event.setValid (slotOf (w.sim.simulated_job_id_counter + 1))]
        ++ (if lock_result = 0 then [Event.unlock] else []), ?_, ?_⟩
    · simp [List.append_assoc]
    · by_cases hl : lock_result = 0 <;> simp [hl, released]

/-- C7 at a concrete input: slot 5 holds job 3 and the counter is 4, so the
submission of job 42 releases job 3 and nothing else. -/
theorem C7_send_work_releases_prior_occupant_witness :
    released (newEvents (allocated (Function.update emptyTable 5 (some 3)) clearBitmap 4)
      (ASIC_send_work 0 (allocated (Function.update emptyTable 5 (some 3)) clearBitmap 4)
        (some 42))) = [3] :=
  (C7_send_work_releases_prior_occupant 0
    (allocated (Function.update emptyTable 5 (some 3)) clearBitmap 4) 42
    (Function.update emptyTable 5 (some 3)) clearBitmap rfl rfl).1.trans (by decide)

/-- In the effects of a submission on allocated arrays, whatever precedes a validity
write contains the store of a job into the same slot. -/
theorem store_before_setValid (rel : List Event) (t : Fin SLOTS) (job : JobRef)
    (lock_result : Int) (tail pre post : List Event) (i : Fin SLOTS)
    (hrel : ∀ k, Event.setValid k ∉ rel)
    (h : rel ++ [Event.storeJob t job, Event.lock lock_result, Event.setValid t] ++ tail
      = pre ++ Event.setValid i :: post)
    (htail : ∀ k, Event.setValid k ∉ tail) :
    ∃ p, Event.storeJob i p ∈ pre := by
  rw [List.append_assoc] at h
  rcases List.append_eq_append_iff.mp h with ⟨a, ha, hb⟩ | ⟨c, hc, hd⟩
  · -- pre = rel ++ a
    rcases a with _ | ⟨x, a⟩
    · simp at hb
    · rcases a with _ | ⟨y, a⟩
      · simp at hb
      · rcases a with _ | ⟨z, a⟩
        · simp only [List.cons_append, List.nil_append, List.cons.injEq] at hb
          obtain ⟨hx, -, hz, -⟩ := hb
          have hi : i = t := by
            injection hz with hz
            exact hz.symm
          exact ⟨job, by rw [ha, hi, ← hx]; simp⟩
        · simp only [List.cons_append, List.nil_append, List.cons.injEq] at hb
          obtain ⟨-, -, -, hb⟩ := hb
          exact absurd (by rw [hb]; simp) (htail i)
  · -- rel = pre ++ c
    rcases c with _ | ⟨x, c⟩
    · simp at hd
    · simp only [List.cons_append, List.cons.injEq] at hd
      exact absurd (by rw [hc, ← hd.1]; simp) (hrel i)

/-- C9: in every call of `ASIC_send_work`, on the locked and on the lock-failed
path alike, whatever the call did before a write `valid_jobs[i] = 1` contains its
store of a job reference into `active_jobs[i]`, and every store of a job reference
into slot `i` is followed later in the call by the write of validity flag `i`. -/
theorem C9_store_then_validate (lock_result : Int) (w : World) (next_job : Option JobRef) :
    (∀ pre post i,
      newEvents w (ASIC_send_work lock_result w next_job) = pre ++ Event.setValid i :: post →
      ∃ p, Event.storeJob i p ∈ pre) ∧
    (∀ i p, Event.storeJob i p ∈ newEvents w (ASIC_send_work lock_result w next_job) →
      ∃ l1 l2 l3, newEvents w (ASIC_send_work lock_result w next_job)
        = l1 ++ Event.storeJob i p :: l2 ++ Event.setValid i :: l3) := by
  cases next_job with
  | none =>
    rw [ASIC_send_work_null, newEvents_self]
    exact ⟨fun pre post i h => by simp at h, fun i p h => by simp at h⟩
  | some job =>
    cases hj : w.G.active_jobs with
    | none =>
      rw [newEvents_send_work_absent lock_result w job (Or.inl hj)]
      exact ⟨fun pre post i h => by simp at h, fun i p h => by simp at h⟩
    | some jobs =>
      cases hv : w.G.valid_jobs with
      | none =>
        rw [newEvents_send_work_absent lock_result w job (Or.inr hv)]
        exact ⟨fun pre post i h => by simp at h, fun i p h => by simp at h⟩
      | some valid =>
        rw [newEvents_send_work_allocated lock_result w job jobs valid hj hv]
        refine ⟨fun pre post i h => ?_, fun i p h => ?_⟩
        · refine store_before_setValid _ _ job lock_result _ pre post i ?_ h ?_
          · intro k hk
            cases hocc : jobs (slotOf (w.sim.simulated_job_id_counter + 1)) <;>
              rw [hocc] at hk <;> simp [releaseOf] at hk
          · intro k hk
            by_cases hl : lock_result = 0 <;> simp [hl] at hk
        · have hip : i = slotOf (w.sim.simulated_job_id_counter + 1) ∧ p = job := by
            cases hocc : jobs (slotOf (w.sim.simulated_job_id_counter + 1)) <;>
              rw [hocc] at h <;>
              by_cases hl : lock_result = 0 <;> simpa [hl, releaseOf] using h
          obtain ⟨rfl, rfl⟩ := hip
          exact ⟨releaseOf (slotOf (w.sim.simulated_job_id_counter + 1))
              (jobs (slotOf (w.sim.simulated_job_id_counter + 1))),
            [Event.lock lock_result],
            if lock_result = 0 then [Event.unlock] else [], by simp [List.append_assoc]⟩

/-- C9 at a concrete input on the lock-failed path (lock result 22): the store of
job 42 into slot 5 is followed by the write of validity flag 5. -/
theorem C9_store_then_validate_witness :
    ∃ l1 l2 l3, newEvents (allocated emptyTable clearBitmap 4)
        (ASIC_send_work 22 (allocated emptyTable clearBitmap 4) (some 42))
      = l1 ++ Event.storeJob 5 42 :: l2 ++ Event.setValid 5 :: l3 :=
  (C9_store_then_validate 22 (allocated emptyTable clearBitmap 4) (some 42)).2 5 42 (by decide)

/-- C10 as stated fails: on the locked path from counter 4 with an empty table,
the store of job 42 into slot 5 is performed before `valid_jobs_lock` is taken, so
not every release, store and validity write of the call is under the lock. -/
theorem C10_store_outside_lock_counterexample :
    newEvents (allocated emptyTable clearBitmap 4)
        (ASIC_send_work 0 (allocated emptyTable clearBitmap 4) (some 42))
      = [Event.storeJob 5 42, Event.lock 0, Event.setValid 5, Event.unlock] ∧
    allUnderLock 0 (newEvents (allocated emptyTable clearBitmap 4)
        (ASIC_send_work 0 (allocated emptyTable clearBitmap 4) (some 42))) = false := by
  decide

/-- C10 amended: on the path where the lock is acquired, with both arrays allocated
and a non-null job, the call first releases the prior occupant of slot i (if any)
and stores the new reference into slot i, both before `pthread_mutex_lock`; between
the successful `pthread_mutex_lock` and the `pthread_mutex_unlock` that ends the call
it performs exactly the write of validity flag i. -/
theorem C10_only_validity_write_under_lock (w : World) (job : JobRef)
    (jobs : Fin SLOTS → Option JobRef) (valid : Fin SLOTS → Nat)
    (hj : w.G.active_jobs = some jobs) (hv : w.G.valid_jobs = some valid) :
    newEvents w (ASIC_send_work 0 w (some job))
      = (releaseOf (slotOf (w.sim.simulated_job_id_counter + 1))
            (jobs (slotOf (w.sim.simulated_job_id_counter + 1)))
          ++ [Event.storeJob (slotOf (w.sim.simulated_job_id_counter + 1)) job])
        ++ [Event.lock 0, Event.setValid (slotOf (w.sim.simulated_job_id_counter + 1)),
            Event.unlock] ∧
    allUnderLock 0 [Event.lock 0, Event.setValid (slotOf (w.sim.simulated_job_id_counter + 1)),
      Event.unlock] = true ∧
    allUnderLock 0 (releaseOf (slotOf (w.sim.simulated_job_id_counter + 1))
            (jobs (slotOf (w.sim.simulated_job_id_counter + 1)))
          ++ [Event.storeJob (slotOf (w.sim.simulated_job_id_counter + 1)) job]) = false := by
  rw [newEvents_send_work_allocated 0 w job jobs valid hj hv]
  refine ⟨by simp [List.append_assoc], by simp [allUnderLock], ?_⟩
  cases jobs (slotOf (w.sim.simulated_job_id_counter + 1)) <;> simp [releaseOf, allUnderLock]

/-- C10 amended, at a concrete input: slot 5 holds job 3 and the counter is 4. -/
theorem C10_only_validity_write_under_lock_witness :
    newEvents (allocated (Function.update emptyTable 5 (some 3)) clearBitmap 4)
        (ASIC_send_work 0 (allocated (Function.update emptyTable 5 (some 3)) clearBitmap 4)
          (some 42))
      = [Event.free 5 3, Event.storeJob 5 42]
        ++ [Event.lock 0, Event.setValid 5, Event.unlock] :=
  (C10_only_validity_write_under_lock
    (allocated (Function.update emptyTable 5 (some 3)) clearBitmap 4) 42
    (Function.update emptyTable 5 (some 3)) clearBitmap rfl rfl).1.trans (by decide)

/-! ## Work submission: sequences of calls -/

/-- Running one more submission after a sequence. -/
theorem submitAll_append (w : World) (calls : List (Int × JobRef)) (r : Int) (j : JobRef) :
    submitAll w (calls ++ [(r, j)]) = ASIC_send_work r (submitAll w calls) (some j) := by
  induction calls generalizing w with
  | nil => rfl
  | cons c cs ih =>
    obtain ⟨r1, j1⟩ := c
    exact ih (ASIC_send_work r1 w (some j1))

/-- The state after a sequence of submissions into an initially empty table: the
arrays stay allocated, the counter has advanced once per call, slot `i` holds the
job of the latest call that addressed it among the last 128 calls, and the releases
so far are the jobs of all calls but the last 128, in submission order. -/
theorem submitAll_invariant (w : World) (valid : Fin SLOTS → Nat)
    (hj : w.G.active_jobs = some emptyTable) (hv : w.G.valid_jobs = some valid)
    (calls : List (Int × JobRef)) :
    ∃ jobs2 valid2 E,
      (submitAll w calls).G.active_jobs = some jobs2 ∧
      (submitAll w calls).G.valid_jobs = some valid2 ∧
      (submitAll w calls).trace = w.trace ++ E ∧
      ((submitAll w calls).sim.simulated_job_id_counter + 1) % 128
        = (w.sim.simulated_job_id_counter + calls.length + 1) % 128 ∧
      (∀ (i : Fin SLOTS) (x : JobRef), jobs2 i = some x ↔
        ∃ m, m < calls.length ∧ calls.length ≤ m + 128 ∧
          (calls.map Prod.snd)[m]? = some x ∧
          (w.sim.simulated_job_id_counter + m + 1) % 128 = i.val) ∧
      released E = (calls.map Prod.snd).take (calls.length - 128) := by
  induction calls using List.reverseRecOn with
  | nil =>
    refine ⟨emptyTable, valid, [], hj, hv, (List.append_nil _).symm, rfl, ?_, rfl⟩
    intro i x
    simp [emptyTable]
  | append_singleton calls c ih =>
    obtain ⟨r, j⟩ := c
    obtain ⟨jobs2, valid2, E, h1, h2, h3, h4, h5, h6⟩ := ih
    have hlen : (calls.map Prod.snd).length = calls.length := List.length_map _ _
    have ht : (slotOf ((submitAll w calls).sim.simulated_job_id_counter + 1)).val
        = (w.sim.simulated_job_id_counter + calls.length + 1) % 128 := h4
    rw [submitAll_append, ASIC_send_work_allocated r _ j jobs2 valid2 h1 h2]
    refine ⟨_, _,
      E ++ releaseOf (slotOf ((submitAll w calls).sim.simulated_job_id_counter + 1))
            (jobs2 (slotOf ((submitAll w calls).sim.simulated_job_id_counter + 1)))
          ++ [Event.storeJob (slotOf ((submitAll w calls).sim.simulated_job_id_counter + 1)) j,
              Event.lock r,
              Event.setValid (slotOf ((submitAll w calls).sim.simulated_job_id_counter + 1))]
          ++ (if r = 0 then [Event.unlock] else []),
      rfl, rfl, ?_, ?_, ?_, ?_⟩
    · show (submitAll w calls).trace ++ _ ++ _ ++ _ = _
      rw [h3]
      simp only [List.append_assoc]
    · show (((submitAll w calls).sim.simulated_job_id_counter + 1) % 128 + 1) % 128
        = (w.sim.simulated_job_id_counter + (calls ++ [(r, j)]).length + 1) % 128
      rw [List.length_append, List.length_singleton]
      omega
    · intro i x
      rw [List.length_append, List.length_singleton, List.map_append, List.map_singleton]
      by_cases hi : i = slotOf ((submitAll w calls).sim.simulated_job_id_counter + 1)
      · subst hi
        rw [Function.update_same]
        constructor
        · intro hx
          refine ⟨calls.length, by omega, by omega, ?_, ht.symm⟩
          rw [← hlen, List.getElem?_concat_length]
          exact hx
        · rintro ⟨m, hm1, hm2, hm3, hm4⟩
          rw [ht] at hm4
          have hmn : m = calls.length := by omega
          subst hmn
          rw [← hlen, List.getElem?_concat_length] at hm3
          exact hm3
      · rw [Function.update_noteq hi, h5 i x]
        have hival : i.val ≠ (w.sim.simulated_job_id_counter + calls.length + 1) % 128 := by
          intro h
          apply hi
          apply Fin.ext
          rw [ht]
          exact h
        constructor
        · rintro ⟨m, hm1, hm2, hm3, hm4⟩
          refine ⟨m, by omega, ?_, ?_, hm4⟩
          · by_contra hcon
            have : calls.length = m + 128 := by omega
            apply hival
            rw [← hm4, this]
            omega
          · rw [List.getElem?_append_left (by omega)]
            exact hm3
        · rintro ⟨m, hm1, hm2, hm3, hm4⟩
          have hmn : m ≠ calls.length := by
            intro h
            apply hival
            rw [← hm4, h]
          have hm : m < calls.length := by omega
          refine ⟨m, hm, by omega, ?_, hm4⟩
          rw [List.getElem?_append_left (by omega)] at hm3
          exact hm3
    · rw [released_append, released_append, released_append, released_releaseOf, h6,
        List.length_append, List.length_singleton, List.map_append, List.map_singleton]
      have htail : released [Event.storeJob
            (slotOf ((submitAll w calls).sim.simulated_job_id_counter + 1)) j,
          Event.lock r,
          Event.setValid (slotOf ((submitAll w calls).sim.simulated_job_id_counter + 1))]
          ++ released (if r = 0 then [Event.unlock] else []) = [] := by
        by_cases hl : r = 0 <;> simp [hl, released]
      rw [List.append_assoc, htail, List.append_nil]
      by_cases hn : calls.length < 128
      · have hnone : jobs2 (slotOf ((submitAll w calls).sim.simulated_job_id_counter + 1))
            = none := by
          cases hocc : jobs2 (slotOf ((submitAll w calls).sim.simulated_job_id_counter + 1)) with
          | none => rfl
          | some x =>
            obtain ⟨m, hm1, hm2, hm3, hm4⟩ := (h5 _ x).mp hocc
            rw [ht] at hm4
            omega
        rw [hnone]
        have h0 : calls.length - 128 = 0 := by omega
        have h1 : calls.length + 1 - 128 = 0 := by omega
        rw [h0, h1]
        simp
      · have hm0 : calls.length - 128 < (calls.map Prod.snd).length := by omega
        have hsome : jobs2 (slotOf ((submitAll w calls).sim.simulated_job_id_counter + 1))
            = some ((calls.map Prod.snd)[calls.length - 128]) := by
          apply (h5 _ _).mpr
          refine ⟨calls.length - 128, by omega, by omega, ?_, ?_⟩
          · exact List.getElem?_eq_getElem hm0
          · rw [ht]
            omega
        rw [hsome]
        have hsucc : calls.length + 1 - 128 = (calls.length - 128) + 1 := by omega
        rw [hsucc, List.take_append_of_le_length (by omega), List.take_succ,
          List.getElem?_eq_getElem hm0]

/-- In a list without repetition, equal entries sit at equal positions. -/
theorem nodup_getElem?_inj (J : List JobRef) (hd : J.Nodup) (m1 m2 : Nat) (x : JobRef)
    (h1 : J[m1]? = some x) (h2 : J[m2]? = some x) : m1 = m2 := by
  have hl1 : m1 < J.length := (List.getElem?_eq_some.mp h1).1
  have hl2 : m2 < J.length := (List.getElem?_eq_some.mp h2).1
  rcases Nat.lt_trichotomy m1 m2 with h | h | h
  · exact absurd (h1.trans h2.symm) (List.nodup_iff_getElem?_ne_getElem?.mp hd m1 m2 h hl2)
  · exact h
  · exact absurd (h2.trans h1.symm) (List.nodup_iff_getElem?_ne_getElem?.mp hd m2 m1 h hl1)

/-- The entries of the last `n - k` positions of a list of length `n`. -/
theorem mem_drop_iff_getElem? (J : List JobRef) (n : Nat) (hn : J.length = n) (x : JobRef) :
    x ∈ J.drop (n - 128) ↔ ∃ m, m < n ∧ n ≤ m + 128 ∧ J[m]? = some x := by
  rw [List.mem_iff_getElem?]
  constructor
  · rintro ⟨a, ha⟩
    rw [List.getElem?_drop] at ha
    have hlt : n - 128 + a < J.length := (List.getElem?_eq_some.mp ha).1
    exact ⟨n - 128 + a, by omega, by omega, ha⟩
  · rintro ⟨m, hm1, hm2, hm3⟩
    refine ⟨m - (n - 128), ?_⟩
    rw [List.getElem?_drop]
    have : n - 128 + (m - (n - 128)) = m := by omega
    rw [this]
    exact hm3

/-- In a list without repetition, the entries past position `k` are the entries that
are not among the first `k`. -/
theorem mem_drop_iff_not_mem_take (J : List JobRef) (hd : J.Nodup) (k : Nat) (x : JobRef) :
    x ∈ J.drop k ↔ x ∈ J ∧ x ∉ J.take k := by
  have hsplit : J.take k ++ J.drop k = J := List.take_append_drop k J
  have hd2 : (J.take k ++ J.drop k).Nodup := by rw [hsplit]; exact hd
  have hdis := (List.nodup_append.mp hd2).2.2
  constructor
  · intro hx
    exact ⟨List.mem_of_mem_drop hx, fun ht => hdis ht hx⟩
  · rintro ⟨hx, hnt⟩
    rw [← hsplit, List.mem_append] at hx
    rcases hx with hx | hx
    · exact absurd hx hnt
    · exact hx

/-- C8: starting from an empty Job Slot Table (both arrays allocated), after any
sequence of `ASIC_send_work` calls with pairwise distinct non-null jobs, whatever the
lock results: the jobs stored in the table are exactly the submitted jobs not yet
released; no slot holds the same job as another; no job is released twice and only
submitted jobs are released; the number of stored (live) jobs is
min(number of calls, 128), so at most 128; and the number of released jobs is
(number of calls - 128), truncated at 0.  A prefix of such a sequence is such a
sequence, so this holds after each call. -/
theorem C8_submissions_never_leak (w : World) (valid : Fin SLOTS → Nat)
    (calls : List (Int × JobRef))
    (hj : w.G.active_jobs = some emptyTable) (hv : w.G.valid_jobs = some valid)
    (hd : (calls.map Prod.snd).Nodup) :
    ∃ jobs2,
      (submitAll w calls).G.active_jobs = some jobs2 ∧
      (∀ x, x ∈ storedJobs jobs2 ↔
        x ∈ calls.map Prod.snd ∧ x ∉ released (newEvents w (submitAll w calls))) ∧
      (storedJobs jobs2).Nodup ∧
      (released (newEvents w (submitAll w calls))).Nodup ∧
      (∀ x, x ∈ released (newEvents w (submitAll w calls)) → x ∈ calls.map Prod.snd) ∧
      (storedJobs jobs2).length = min calls.length 128 ∧
      (storedJobs jobs2).length ≤ 128 ∧
      (released (newEvents w (submitAll w calls))).length = calls.length - 128 := by
  obtain ⟨jobs2, valid2, E, h1, h2, h3, h4, h5, h6⟩ := submitAll_invariant w valid hj hv calls
  have hE : newEvents w (submitAll w calls) = E := by
    simp [newEvents, h3]
  have hlen : (calls.map Prod.snd).length = calls.length := List.length_map _ _
  have hstored : ∀ x, x ∈ storedJobs jobs2 ↔ x ∈ (calls.map Prod.snd).drop (calls.length - 128) := by
    intro x
    rw [mem_drop_iff_getElem? _ _ hlen, storedJobs, List.mem_filterMap]
    constructor
    · rintro ⟨i, -, hi⟩
      obtain ⟨m, hm1, hm2, hm3, -⟩ := (h5 i x).mp hi
      exact ⟨m, hm1, hm2, hm3⟩
    · rintro ⟨m, hm1, hm2, hm3⟩
      exact ⟨slotOf (w.sim.simulated_job_id_counter + m + 1), List.mem_finRange _,
        (h5 _ x).mpr ⟨m, hm1, hm2, hm3, rfl⟩⟩
  have hnd_stored : (storedJobs jobs2).Nodup := by
    refine List.Nodup.filterMap ?_ (List.nodup_finRange _)
    intro a a2 b hb hb2
    obtain ⟨m, -, -, hm3, hm4⟩ := (h5 a b).mp hb
    obtain ⟨m2, -, -, hn3, hn4⟩ := (h5 a2 b).mp hb2
    have hmm : m = m2 := nodup_getElem?_inj _ hd m m2 b hm3 hn3
    apply Fin.ext
    rw [← hm4, ← hn4, hmm]
  have hnd_drop : ((calls.map Prod.snd).drop (calls.length - 128)).Nodup :=
    hd.sublist (List.drop_sublist _ _)
  have hperm : (storedJobs jobs2).Perm ((calls.map Prod.snd).drop (calls.length - 128)) :=
    (List.perm_ext_iff_of_nodup hnd_stored hnd_drop).mpr hstored
  have hcount : (storedJobs jobs2).length = min calls.length 128 := by
    rw [hperm.length_eq, List.length_drop, hlen]
    omega
  rw [hE, h6]
  refine ⟨jobs2, h1, ?_, hnd_stored, hd.sublist (List.take_sublist _ _), ?_, hcount, ?_, ?_⟩
  · intro x
    rw [hstored x]
    exact mem_drop_iff_not_mem_take _ hd _ x
  · intro x hx
    exact List.mem_of_mem_take hx
  · rw [hcount]
    omega
  · rw [List.length_take, hlen]
    omega

/-- C8 for the 200 submissions of jobs 1..200 from the initial state: afterwards
exactly 128 jobs are stored and 72 have been released, none of them twice. -/
theorem C8_submissions_never_leak_witness :
    ∃ jobs2,
      (submitAll (allocated emptyTable clearBitmap 0) calls200).G.active_jobs = some jobs2 ∧
      (storedJobs jobs2).length = 128 ∧
      (released (newEvents (allocated emptyTable clearBitmap 0)
        (submitAll (allocated emptyTable clearBitmap 0) calls200))).length = 72 ∧
      (released (newEvents (allocated emptyTable clearBitmap 0)
        (submitAll (allocated emptyTable clearBitmap 0) calls200))).Nodup := by
  have hd : (calls200.map Prod.snd).Nodup := by
    simp only [calls200, List.map_map]
    exact (List.nodup_range 200).map (fun a b h => by simpa using h)
  have hlen : calls200.length = 200 := by simp [calls200]
  obtain ⟨jobs2, h1, -, -, hn, -, hl, -, hr⟩ :=
    C8_submissions_never_leak (allocated emptyTable clearBitmap 0) clearBitmap calls200
      rfl rfl hd
  exact ⟨jobs2, h1, by rw [hl, hlen]; rfl, by rw [hr, hlen], hn⟩

/-! ## Result polling: the timing and probability model -/

/-- The bounded probability is between 1 and 50 whatever integer is bounded. -/
theorem clamp_probability_bounds (p : Int) :
    1 ≤ clamp_probability p ∧ clamp_probability p ≤ 50 := by
  unfold clamp_probability
  dsimp only
  split_ifs <;> omega

/-- The bounded cooldown is between 500 and 10000 whatever number is bounded. -/
theorem clamp_cooldown_bounds (ms : Nat) :
    500 ≤ clamp_cooldown ms ∧ clamp_cooldown ms ≤ 10000 := by
  unfold clamp_cooldown
  dsimp only
  split_ifs <;> omega

/-- The integral part of a non-negative rational below an integer bound. -/
theorem truncQ_bounds (q : ℚ) (b : Int) (h0 : 0 ≤ q) (hb : q < b) :
    0 ≤ truncQ q ∧ truncQ q < b := by
  unfold truncQ
  rw [if_pos h0]
  exact ⟨Int.floor_nonneg.mpr h0, Int.floor_lt.mpr hb⟩

/-- The integral part of a non-negative rational that is at least an integer bound. -/
theorem le_truncQ (q : ℚ) (b : Int) (h0 : 0 ≤ q) (hb : (b : ℚ) ≤ q) : b ≤ truncQ q := by
  unfold truncQ
  rw [if_pos h0]
  exact Int.le_floor.mpr hb

/-- A finite raw cooldown between 0 and 500 ms gives `min_cooldown_ms = 500`. -/
theorem min_cooldown_ms_of_lt_500 (P : Platform) (sim : SimState) (G : GlobalState) (q : ℚ)
    (hraw : FVal.mul (cooldown_seconds sim G) (FVal.fin 1000) = FVal.fin q)
    (h0 : 0 ≤ q) (h500 : q < 500) :
    min_cooldown_ms P sim G = 500 := by
  have hb := truncQ_bounds q 500 h0 (by exact_mod_cast h500)
  have hin : 0 ≤ truncQ q ∧ truncQ q < 4294967296 := ⟨hb.1, by omega⟩
  unfold min_cooldown_ms
  rw [hraw]
  simp only [to_uint32, if_pos hin]
  unfold clamp_cooldown
  dsimp only
  have hlt : (truncQ q).toNat < 500 := by omega
  rw [if_pos hlt]
  simp

/-- A finite raw probability between 50 and 2^31 gives `result_probability = 50`. -/
theorem result_probability_of_ge_50 (P : Platform) (sim : SimState) (G : GlobalState) (q : ℚ)
    (hraw : FVal.mul (FVal.div (results_per_second sim G) (FVal.fin 10)) (FVal.fin 100)
      = FVal.fin q)
    (h50 : 50 ≤ q) (hmax : q < 2147483648) :
    result_probability P sim G = 50 := by
  have h0 : (0 : ℚ) ≤ q := le_trans (by norm_num) h50
  have hb := truncQ_bounds q 2147483648 h0 (by exact_mod_cast hmax)
  have hge : 50 ≤ truncQ q := le_truncQ q 50 h0 (by exact_mod_cast h50)
  have hin : -2147483648 ≤ truncQ q ∧ truncQ q < 2147483648 := ⟨by omega, hb.2⟩
  unfold result_probability
  rw [hraw]
  simp only [to_int, if_pos hin]
  unfold clamp_probability
  dsimp only
  split_ifs <;> omega

/-- C11: for every stored frequency and every device profile (cores per chip, chip
count, difficulty, zero included), and whatever the platform makes of a conversion
to `int` that is out of range, the `result_probability` computed by
`ASIC_process_work` is at least 1 and at most 50. -/
theorem C11_result_probability_bounds (P : Platform) (sim : SimState) (G : GlobalState) :
    1 ≤ result_probability P sim G ∧ result_probability P sim G ≤ 50 :=
  clamp_probability_bounds _

/-- Multiplication of two finite values. -/
theorem FVal.mul_fin (a b : ℚ) : FVal.mul (FVal.fin a) (FVal.fin b) = FVal.fin (a * b) := rfl

/-- Division of two finite values with a non-zero divisor. -/
theorem FVal.div_fin (a b : ℚ) (hb : b ≠ 0) :
    FVal.div (FVal.fin a) (FVal.fin b) = FVal.fin (a / b) := by
  show (if b = 0 then (if a = 0 then FVal.nan else FVal.inf) else FVal.fin (a / b)) = _
  rw [if_neg hb]

/-- The values computed for 400 MHz, 672 cores per chip, one chip and difficulty 1. -/
theorem scenario_400MHz_values (P : Platform) (sim : SimState) (G : GlobalState)
    (hf : sim.simulated_frequency = 400)
    (hc : G.DEVICE_CONFIG.family.asic.small_core_count = 672)
    (hn : G.DEVICE_CONFIG.family.asic_count = 1)
    (hd : G.DEVICE_CONFIG.family.asic.difficulty = 1) :
    expected_hashrate_ghs sim G = FVal.fin (2688 / 10) ∧
    FVal.mul (cooldown_seconds sim G) (FVal.fin 1000) = FVal.fin (1048576 / 65625) ∧
    (1048576 / 65625 : ℚ) < 500 ∧
    min_cooldown_ms P sim G = 500 ∧
    result_probability P sim G = 50 := by
  have hghs : expected_hashrate_ghs sim G = FVal.fin (2688 / 10) := by
    unfold expected_hashrate_ghs
    rw [hf, hc, hn, FVal.mul_fin, FVal.mul_fin, FVal.div_fin _ _ (by norm_num)]
    congr 1
    norm_num
  have hrps : results_per_second sim G = FVal.fin (8203125 / 131072) := by
    unfold results_per_second
    rw [hghs, hd, FVal.mul_fin, FVal.mul_fin, FVal.div_fin _ _ (by norm_num)]
    congr 1
    norm_num
  have hraw : FVal.mul (cooldown_seconds sim G) (FVal.fin 1000)
      = FVal.fin (1048576 / 65625) := by
    unfold cooldown_seconds
    rw [hrps, FVal.div_fin _ _ (by norm_num), FVal.mul_fin]
    congr 1
    norm_num
  have hp : FVal.mul (FVal.div (results_per_second sim G) (FVal.fin 10)) (FVal.fin 100)
      = FVal.fin (41015625 / 65536) := by
    rw [hrps, FVal.div_fin _ _ (by norm_num), FVal.mul_fin]
    congr 1
    norm_num
  exact ⟨hghs, hraw, by norm_num,
    min_cooldown_ms_of_lt_500 P sim G _ hraw (by norm_num) (by norm_num),
    result_probability_of_ge_50 P sim G _ hp (by norm_num) (by norm_num)⟩

/-- C13: with frequency 400 MHz, 672 cores per chip, one chip and difficulty 1,
`ASIC_process_work` computes an expected hash rate of 268.8 GH/s, a raw cooldown of
1048576/65625 ms (about 15.98 ms, below 500 ms), `min_cooldown_ms = 500` and
`result_probability = 50`, on every platform. -/
theorem C13_scenario_400MHz (P : Platform) (sim : SimState) (G : GlobalState)
    (hf : sim.simulated_frequency = 400)
    (hc : G.DEVICE_CONFIG.family.asic.small_core_count = 672)
    (hn : G.DEVICE_CONFIG.family.asic_count = 1)
    (hd : G.DEVICE_CONFIG.family.asic.difficulty = 1) :
    expected_hashrate_ghs sim G = FVal.fin (2688 / 10) ∧
    FVal.mul (cooldown_seconds sim G) (FVal.fin 1000) = FVal.fin (1048576 / 65625) ∧
    (1048576 / 65625 : ℚ) < 500 ∧
    min_cooldown_ms P sim G = 500 ∧
    result_probability P sim G = 50 :=
  scenario_400MHz_values P sim G hf hc hn hd

/-- C13 on the example platform, for the initial statics (400 MHz) and the profile
with 672 cores per chip, one chip and difficulty 1. -/
theorem C13_scenario_400MHz_witness :
    min_cooldown_ms hostPlatform (initialWorld (profileState 400 672 1 1)).sim
        (profileState 400 672 1 1) = 500 ∧
    result_probability hostPlatform (initialWorld (profileState 400 672 1 1)).sim
        (profileState 400 672 1 1) = 50 :=
  ⟨(C13_scenario_400MHz hostPlatform (initialWorld (profileState 400 672 1 1)).sim
      (profileState 400 672 1 1) rfl rfl rfl rfl).2.2.2.1,
   (C13_scenario_400MHz hostPlatform (initialWorld (profileState 400 672 1 1)).sim
      (profileState 400 672 1 1) rfl rfl rfl rfl).2.2.2.2⟩

/-- Reducing the tick count to 32 bits first does not change a tick difference. -/
theorem sub32_mod (a b : Nat) : sub32 (a % 4294967296) b = sub32 a b := by
  simp [sub32]

/-- The logging block leaves `GlobalState` alone. -/
theorem log_performance_G (w : World) (P : Platform) (t : Nat) :
    (w.log_performance P t).G = w.G := by
  unfold World.log_performance
  split_ifs <;> rfl

/-- The logging block performs no memory or lock effect. -/
theorem log_performance_trace (w : World) (P : Platform) (t : Nat) :
    (w.log_performance P t).trace = w.trace := by
  unfold World.log_performance
  split_ifs <;> rfl

/-- The logging block changes no static but `last_log_time`. -/
theorem log_performance_sim (w : World) (P : Platform) (t : Nat) :
    (w.log_performance P t).sim.simulated_chip_count = w.sim.simulated_chip_count ∧
    (w.log_performance P t).sim.simulated_frequency = w.sim.simulated_frequency ∧
    (w.log_performance P t).sim.simulated_version_mask = w.sim.simulated_version_mask ∧
    (w.log_performance P t).sim.simulated_baud_rate = w.sim.simulated_baud_rate ∧
    (w.log_performance P t).sim.simulated_job_id_counter = w.sim.simulated_job_id_counter ∧
    (w.log_performance P t).sim.simulated_result = w.sim.simulated_result ∧
    (w.log_performance P t).sim.has_pending_result = w.sim.has_pending_result ∧
    (w.log_performance P t).sim.last_result_time = w.sim.last_result_time := by
  unfold World.log_performance
  split_ifs <;> exact ⟨rfl, rfl, rfl, rfl, rfl, rfl, rfl, rfl⟩

/-- A poll with a null array: nothing happens. -/
theorem ASIC_process_work_absent (P : Platform) (tick r1 r2 r3 : Nat) (w : World)
    (h : w.G.active_jobs = none ∨ w.G.valid_jobs = none) :
    ASIC_process_work P tick r1 r2 r3 w
      = { result := none, w := w, rand_calls := 0, yielded := false } := by
  unfold ASIC_process_work
  rcases h with h | h
  · rw [h]
  · rw [h]
    cases w.G.active_jobs <;> rfl

/-- A poll during the cooldown: the call yields and returns `NULL`. -/
theorem ASIC_process_work_in_cooldown (P : Platform) (tick r1 r2 r3 : Nat) (w : World)
    (jobs : Fin SLOTS → Option JobRef) (valid : Fin SLOTS → Nat)
    (hj : w.G.active_jobs = some jobs) (hv : w.G.valid_jobs = some valid)
    (hcd : sub32 tick w.sim.last_result_time < P.pdMS_TO_TICKS (min_cooldown_ms P w.sim w.G)) :
    ASIC_process_work P tick r1 r2 r3 w
      = { result := none, w := w, rand_calls := 0, yielded := true } := by
  unfold ASIC_process_work
  rw [hj, hv]
  simp only [sub32_mod]
  rw [if_pos hcd]

/-- A poll outside the cooldown whose draw succeeds: the result is synthesized,
returned at once, and the pending flag is clear again at the return. -/
theorem ASIC_process_work_found (P : Platform) (tick r1 r2 r3 : Nat) (w : World)
    (jobs : Fin SLOTS → Option JobRef) (valid : Fin SLOTS → Nat)
    (hj : w.G.active_jobs = some jobs) (hv : w.G.valid_jobs = some valid)
    (hcd : ¬ sub32 tick w.sim.last_result_time
      < P.pdMS_TO_TICKS (min_cooldown_ms P w.sim w.G))
    (hfound : (r1 % 100 : Int) < result_probability P w.sim w.G) :
    ASIC_process_work P tick r1 r2 r3 w
      = { result := some
            { job_id := w.sim.simulated_job_id_counter % 128,
              nonce := r2 % 4294967296,
              rolled_version := 0x20000000 ||| (r3 &&& 0x1FFF) },
          w := { w.log_performance P (tick % 4294967296) with
            sim := { (w.log_performance P (tick % 4294967296)).sim with
              simulated_result :=
                { job_id := w.sim.simulated_job_id_counter % 128,
                  nonce := r2 % 4294967296,
                  rolled_version := 0x20000000 ||| (r3 &&& 0x1FFF) },
              has_pending_result := false,
              last_result_time := tick % 4294967296 } },
          rand_calls := 3,
          yielded := false } := by
  unfold ASIC_process_work
  rw [hj, hv]
  simp only [sub32_mod]
  rw [if_neg hcd]
  simp [hfound, (log_performance_sim w P (tick % 4294967296)).2.2.2.2.1]

/-- A poll outside the cooldown whose draw fails, with no result pending on entry:
the call yields and returns `NULL`; only `last_log_time` may have changed. -/
theorem ASIC_process_work_not_found (P : Platform) (tick r1 r2 r3 : Nat) (w : World)
    (jobs : Fin SLOTS → Option JobRef) (valid : Fin SLOTS → Nat)
    (hj : w.G.active_jobs = some jobs) (hv : w.G.valid_jobs = some valid)
    (hp : w.sim.has_pending_result = false)
    (hcd : ¬ sub32 tick w.sim.last_result_time
      < P.pdMS_TO_TICKS (min_cooldown_ms P w.sim w.G))
    (hfound : ¬ (r1 % 100 : Int) < result_probability P w.sim w.G) :
    ASIC_process_work P tick r1 r2 r3 w
      = { result := none,
          w := w.log_performance P (tick % 4294967296),
          rand_calls := 1,
          yielded := true } := by
  unfold ASIC_process_work
  rw [hj, hv]
  simp only [sub32_mod]
  rw [if_neg hcd]
  simp [hfound, (log_performance_sim w P (tick % 4294967296)).2.2.2.2.2.2.1, hp]

/-- The scenario world: initial statics (400 MHz), arrays allocated and empty, 672
cores per chip, one chip, difficulty 1.  Its cooldown is 500 ms. -/
theorem scenario_min_cooldown (P : Platform) :
    min_cooldown_ms P (initialWorld (profileState 400 672 1 1)).sim
      (initialWorld (profileState 400 672 1 1)).G = 500 :=
  (scenario_400MHz_values P _ _ rfl rfl rfl rfl).2.2.2.1

/-- The probability of the scenario world is 50. -/
theorem scenario_probability (P : Platform) :
    result_probability P (initialWorld (profileState 400 672 1 1)).sim
      (initialWorld (profileState 400 672 1 1)).G = 50 :=
  (scenario_400MHz_values P _ _ rfl rfl rfl rfl).2.2.2.2

/-- On the example platform tick 100 is inside the cooldown of the scenario world. -/
theorem scenario_tick_100_in_cooldown :
    sub32 100 (initialWorld (profileState 400 672 1 1)).sim.last_result_time
      < hostPlatform.pdMS_TO_TICKS
          (min_cooldown_ms hostPlatform (initialWorld (profileState 400 672 1 1)).sim
            (initialWorld (profileState 400 672 1 1)).G) := by
  rw [scenario_min_cooldown]
  decide

/-- On the example platform tick 700 is outside the cooldown of the scenario world. -/
theorem scenario_tick_700_outside_cooldown :
    ¬ sub32 700 (initialWorld (profileState 400 672 1 1)).sim.last_result_time
      < hostPlatform.pdMS_TO_TICKS
          (min_cooldown_ms hostPlatform (initialWorld (profileState 400 672 1 1)).sim
            (initialWorld (profileState 400 672 1 1)).G) := by
  rw [scenario_min_cooldown]
  decide

/-- C15: with both arrays allocated, when (current tick - last_result_time) mod 2^32
is below `pdMS_TO_TICKS(min_cooldown_ms)`, `ASIC_process_work` returns `NULL`, calls
`rand()` not once, yields, and leaves the whole world as it was: in particular the
pending flag, the stored result, `last_result_time` and the job-id counter. -/
theorem C15_cooldown_returns_nothing (P : Platform) (tick r1 r2 r3 : Nat) (w : World)
    (jobs : Fin SLOTS → Option JobRef) (valid : Fin SLOTS → Nat)
    (hj : w.G.active_jobs = some jobs) (hv : w.G.valid_jobs = some valid)
    (hcd : sub32 tick w.sim.last_result_time < P.pdMS_TO_TICKS (min_cooldown_ms P w.sim w.G)) :
    (ASIC_process_work P tick r1 r2 r3 w).result = none ∧
    (ASIC_process_work P tick r1 r2 r3 w).rand_calls = 0 ∧
    (ASIC_process_work P tick r1 r2 r3 w).yielded = true ∧
    (ASIC_process_work P tick r1 r2 r3 w).w = w ∧
    (ASIC_process_work P tick r1 r2 r3 w).w.sim.has_pending_result
      = w.sim.has_pending_result ∧
    (ASIC_process_work P tick r1 r2 r3 w).w.sim.simulated_result = w.sim.simulated_result ∧
    (ASIC_process_work P tick r1 r2 r3 w).w.sim.last_result_time = w.sim.last_result_time ∧
    (ASIC_process_work P tick r1 r2 r3 w).w.sim.simulated_job_id_counter
      = w.sim.simulated_job_id_counter := by
  rw [ASIC_process_work_in_cooldown P tick r1 r2 r3 w jobs valid hj hv hcd]
  exact ⟨rfl, rfl, rfl, rfl, rfl, rfl, rfl, rfl⟩

/-- C15 at a concrete input: the scenario world polled at tick 100, with a cooldown of
500 ticks since tick 0. -/
theorem C15_cooldown_returns_nothing_witness :
    (ASIC_process_work hostPlatform 100 0 1 2
      (initialWorld (profileState 400 672 1 1))).result = none ∧
    (ASIC_process_work hostPlatform 100 0 1 2
      (initialWorld (profileState 400 672 1 1))).rand_calls = 0 :=
  ⟨(C15_cooldown_returns_nothing hostPlatform 100 0 1 2
      (initialWorld (profileState 400 672 1 1)) emptyTable clearBitmap rfl rfl
      scenario_tick_100_in_cooldown).1,
   (C15_cooldown_returns_nothing hostPlatform 100 0 1 2
      (initialWorld (profileState 400 672 1 1)) emptyTable clearBitmap rfl rfl
      scenario_tick_100_in_cooldown).2.1⟩

/-- C16: with both arrays allocated, no result pending on entry (as in every state the
engine can reach) and the cooldown elapsed, `ASIC_process_work` returns a result
exactly when `rand() % 100 < result_probability`.  When it does, the result's `job_id`
is the job-id counter modulo 128 and `last_result_time` becomes the current tick (as
a `uint32_t`); when it does not, it returns `NULL` and leaves the stored result and
`last_result_time` as they were. -/
theorem C16_result_iff_draw_below_probability (P : Platform) (tick r1 r2 r3 : Nat) (w : World)
    (jobs : Fin SLOTS → Option JobRef) (valid : Fin SLOTS → Nat)
    (hj : w.G.active_jobs = some jobs) (hv : w.G.valid_jobs = some valid)
    (hp : w.sim.has_pending_result = false)
    (hcd : ¬ sub32 tick w.sim.last_result_time
      < P.pdMS_TO_TICKS (min_cooldown_ms P w.sim w.G)) :
    ((ASIC_process_work P tick r1 r2 r3 w).result.isSome = true
      ↔ (r1 % 100 : Int) < result_probability P w.sim w.G) ∧
    ((r1 % 100 : Int) < result_probability P w.sim w.G →
      ∃ res, (ASIC_process_work P tick r1 r2 r3 w).result = some res ∧
        res.job_id = w.sim.simulated_job_id_counter % 128 ∧
        (ASIC_process_work P tick r1 r2 r3 w).w.sim.last_result_time = tick % 4294967296) ∧
    (¬ (r1 % 100 : Int) < result_probability P w.sim w.G →
      (ASIC_process_work P tick r1 r2 r3 w).result = none ∧
      (ASIC_process_work P tick r1 r2 r3 w).w.sim.simulated_result = w.sim.simulated_result ∧
      (ASIC_process_work P tick r1 r2 r3 w).w.sim.last_result_time
        = w.sim.last_result_time) := by
  by_cases hfound : (r1 % 100 : Int) < result_probability P w.sim w.G
  · rw [ASIC_process_work_found P tick r1 r2 r3 w jobs valid hj hv hcd hfound]
    exact ⟨⟨fun _ => hfound, fun _ => rfl⟩, fun _ => ⟨_, rfl, rfl, rfl⟩,
      fun h => absurd hfound h⟩
  · rw [ASIC_process_work_not_found P tick r1 r2 r3 w jobs valid hj hv hp hcd hfound]
    refine ⟨⟨fun h => by simp at h, fun h => absurd h hfound⟩, fun h => absurd h hfound,
      fun _ => ⟨rfl, ?_, ?_⟩⟩
    · exact (log_performance_sim w P (tick % 4294967296)).2.2.2.2.2.1
    · exact (log_performance_sim w P (tick % 4294967296)).2.2.2.2.2.2.2

/-- C16 at a concrete input: the scenario world polled at tick 700 returns a result
for the draw 49 and none for the draw 50 (probability 50). -/
theorem C16_result_iff_draw_below_probability_witness :
    (ASIC_process_work hostPlatform 700 49 1 2
      (initialWorld (profileState 400 672 1 1))).result.isSome = true ∧
    (ASIC_process_work hostPlatform 700 50 1 2
      (initialWorld (profileState 400 672 1 1))).result = none :=
  ⟨(C16_result_iff_draw_below_probability hostPlatform 700 49 1 2
      (initialWorld (profileState 400 672 1 1)) emptyTable clearBitmap rfl rfl rfl
      scenario_tick_700_outside_cooldown).1.mpr
      (by rw [scenario_probability]; decide),
   ((C16_result_iff_draw_below_probability hostPlatform 700 50 1 2
      (initialWorld (profileState 400 672 1 1)) emptyTable clearBitmap rfl rfl rfl
      scenario_tick_700_outside_cooldown).2.2
      (by rw [scenario_probability]; decide)).1⟩

/-- The tag 0x20000000 OR'd with a value below 2^13 is their sum. -/
theorem tag_or_low_bits (x : Nat) (h : x < 8192) : 0x20000000 ||| x = 0x20000000 + x := by
  have hx := Nat.mul_add_lt_is_or (i := 13) (b := x) (by simpa using h) 65536
  simpa using hx.symm

/-- Masking the 13 low bits away from the tag plus a value below 2^13 leaves the tag. -/
theorem tag_and_high_mask (x : Nat) (h : x < 8192) :
    (0x20000000 + x) &&& 0xFFFFE000 = 0x20000000 := by
  rw [← tag_or_low_bits x h]
  apply Nat.eq_of_testBit_eq
  intro i
  have hM : (0xFFFFE000 : Nat) = 2 ^ 13 * (2 ^ 19 - 1) := by norm_num
  have hT : (0x20000000 : Nat) = 2 ^ 29 := by norm_num
  rw [hM, hT, Nat.testBit_and, Nat.testBit_or, Nat.testBit_mul_pow_two,
    Nat.testBit_two_pow_sub_one, Nat.testBit_two_pow]
  by_cases hi : 13 ≤ i
  · have hx : x.testBit i = false :=
      Nat.testBit_lt_two_pow
        (lt_of_lt_of_le (by simpa using h) (Nat.pow_le_pow_right (by norm_num) hi))
    rw [hx]
    by_cases h29 : 29 = i
    · subst h29
      simp
    · simp [h29]
  · have h29 : ¬ 29 = i := by omega
    simp [hi, h29]

/-- The 13 low bits of a draw are a value below 2^13. -/
theorem low_bits_lt (r : Nat) : r &&& 0x1FFF < 8192 := by
  have h := Nat.and_pow_two_sub_one_eq_mod r 13
  have h2 : r &&& 0x1FFF = r % 8192 := by simpa using h
  rw [h2]
  exact Nat.mod_lt _ (by norm_num)

/-- The 13 low bits of a value below 2^13 are the value. -/
theorem low_bits_of_lt (x : Nat) (h : x < 8192) : x &&& 0x1FFF = x := by
  have h1 := Nat.and_pow_two_sub_one_eq_mod x 13
  have h2 : x &&& 0x1FFF = x % 8192 := by simpa using h1
  rw [h2]
  exact Nat.mod_eq_of_lt h

/-- C18: whenever `ASIC_process_work` synthesizes a result (arrays allocated, cooldown
elapsed, successful first draw), for every third draw `r3` the `rolled_version` is
`0x20000000 | (r3 & 0x1FFF)`; masking its 13 low bits away leaves `0x20000000`; it
lies between `0x20000000` and `0x20001FFF`; and every value in that range is the
`rolled_version` for some draw (one not above 8191, so within every `RAND_MAX`). -/
theorem C18_rolled_version_tag (P : Platform) (tick r1 r2 : Nat) (w : World)
    (jobs : Fin SLOTS → Option JobRef) (valid : Fin SLOTS → Nat)
    (hj : w.G.active_jobs = some jobs) (hv : w.G.valid_jobs = some valid)
    (hcd : ¬ sub32 tick w.sim.last_result_time
      < P.pdMS_TO_TICKS (min_cooldown_ms P w.sim w.G))
    (hfound : (r1 % 100 : Int) < result_probability P w.sim w.G) :
    (∀ r3, ∃ res, (ASIC_process_work P tick r1 r2 r3 w).result = some res ∧
      res.rolled_version = 0x20000000 ||| (r3 &&& 0x1FFF) ∧
      res.rolled_version &&& 0xFFFFE000 = 0x20000000 ∧
      0x20000000 ≤ res.rolled_version ∧ res.rolled_version ≤ 0x20001FFF) ∧
    (∀ v, 0x20000000 ≤ v → v ≤ 0x20001FFF →
      ∃ r3, r3 ≤ 8191 ∧ ∃ res, (ASIC_process_work P tick r1 r2 r3 w).result = some res ∧
        res.rolled_version = v) := by
  constructor
  · intro r3
    rw [ASIC_process_work_found P tick r1 r2 r3 w jobs valid hj hv hcd hfound]
    have hlt := low_bits_lt r3
    refine ⟨_, rfl, rfl, ?_, ?_, ?_⟩
    · show (0x20000000 ||| (r3 &&& 0x1FFF)) &&& 0xFFFFE000 = 0x20000000
      rw [tag_or_low_bits _ hlt]
      exact tag_and_high_mask _ hlt
    · show 0x20000000 ≤ 0x20000000 ||| (r3 &&& 0x1FFF)
      rw [tag_or_low_bits _ hlt]
      omega
    · show 0x20000000 ||| (r3 &&& 0x1FFF) ≤ 0x20001FFF
      rw [tag_or_low_bits _ hlt]
      omega
  · intro v hlo hhi
    have hx : v - 0x20000000 < 8192 := by omega
    refine ⟨v - 0x20000000, by omega, ?_⟩
    rw [ASIC_process_work_found P tick r1 r2 _ w jobs valid hj hv hcd hfound]
    refine ⟨_, rfl, ?_⟩
    show 0x20000000 ||| ((v - 0x20000000) &&& 0x1FFF) = v
    rw [low_bits_of_lt _ hx, tag_or_low_bits _ hx]
    omega

/-- C18 at a concrete input: in the scenario world at tick 700, the third draw
0xFFFFF gives the version 0x20001FFF. -/
theorem C18_rolled_version_tag_witness :
    ∃ res, (ASIC_process_work hostPlatform 700 49 1 0xFFFFF
        (initialWorld (profileState 400 672 1 1))).result = some res ∧
      res.rolled_version = 0x20001FFF := by
  obtain ⟨res, h1, h2, -, -, -⟩ :=
    (C18_rolled_version_tag hostPlatform 700 49 1
      (initialWorld (profileState 400 672 1 1)) emptyTable clearBitmap rfl rfl
      scenario_tick_700_outside_cooldown (by rw [scenario_probability]; decide)).1 0xFFFFF
  exact ⟨res, h1, h2.trans (by decide)⟩

/-- A poll that returns a result, entered with no result pending, has both arrays
allocated, the cooldown elapsed and a successful first draw, and returns the result
it has just synthesized. -/
theorem ASIC_process_work_result_some (P : Platform) (tick r1 r2 r3 : Nat) (w : World)
    (res : task_result) (hp : w.sim.has_pending_result = false)
    (h : (ASIC_process_work P tick r1 r2 r3 w).result = some res) :
    (∃ jobs valid, w.G.active_jobs = some jobs ∧ w.G.valid_jobs = some valid) ∧
    ¬ sub32 tick w.sim.last_result_time < P.pdMS_TO_TICKS (min_cooldown_ms P w.sim w.G) ∧
    (r1 % 100 : Int) < result_probability P w.sim w.G ∧
    res = { job_id := w.sim.simulated_job_id_counter % 128,
            nonce := r2 % 4294967296,
            rolled_version := 0x20000000 ||| (r3 &&& 0x1FFF) } := by
  cases hj : w.G.active_jobs with
  | none =>
    rw [ASIC_process_work_absent P tick r1 r2 r3 w (Or.inl hj)] at h
    simp at h
  | some jobs =>
    cases hv : w.G.valid_jobs with
    | none =>
      rw [ASIC_process_work_absent P tick r1 r2 r3 w (Or.inr hv)] at h
      simp at h
    | some valid =>
      by_cases hcd : sub32 tick w.sim.last_result_time
          < P.pdMS_TO_TICKS (min_cooldown_ms P w.sim w.G)
      · rw [ASIC_process_work_in_cooldown P tick r1 r2 r3 w jobs valid hj hv hcd] at h
        simp at h
      · by_cases hfound : (r1 % 100 : Int) < result_probability P w.sim w.G
        · rw [ASIC_process_work_found P tick r1 r2 r3 w jobs valid hj hv hcd hfound] at h
          simp only [Option.some.injEq] at h
          exact ⟨⟨jobs, valid, rfl, rfl⟩, hcd, hfound, h.symm⟩
        · rw [ASIC_process_work_not_found P tick r1 r2 r3 w jobs valid hj hv hp hcd hfound]
            at h
          simp at h

/-- C19 as stated fails: the value 2^31 (a 32-bit value) is never the nonce.  No
platform, state without a pending result, tick, or outcome of the random source whose
second draw is an `int` (at most `INT_MAX`) makes `ASIC_process_work` return a result
with nonce 2147483648. -/
theorem C19_nonce_never_2_pow_31_counterexample :
    ¬ ∃ (P : Platform) (tick r1 r2 r3 : Nat) (w : World) (res : task_result),
        r2 ≤ INT_MAX ∧ w.sim.has_pending_result = false ∧
        (ASIC_process_work P tick r1 r2 r3 w).result = some res ∧
        res.nonce = 2147483648 := by
  rintro ⟨P, tick, r1, r2, r3, w, res, hr, hp, hres, hn⟩
  obtain ⟨-, -, -, hrec⟩ := ASIC_process_work_result_some P tick r1 r2 r3 w res hp hres
  rw [hrec] at hn
  simp only [INT_MAX] at hr
  simp only at hn
  omega

/-- C19 amended: the nonce of a synthesized result is the value of the second `rand()`
call, a non-negative `int`.  With both arrays allocated, no result pending and the
cooldown elapsed, for every `RAND_MAX` not above `INT_MAX`: every value from 0 to
`RAND_MAX` is the nonce of the result returned for some outcome of the random source,
and every returned nonce equals the second draw and is below 2^31. -/
theorem C19_nonce_is_rand_value (P : Platform) (tick : Nat) (w : World)
    (jobs : Fin SLOTS → Option JobRef) (valid : Fin SLOTS → Nat)
    (hj : w.G.active_jobs = some jobs) (hv : w.G.valid_jobs = some valid)
    (hp : w.sim.has_pending_result = false)
    (hcd : ¬ sub32 tick w.sim.last_result_time
      < P.pdMS_TO_TICKS (min_cooldown_ms P w.sim w.G))
    (RAND_MAX : Nat) (hR : RAND_MAX ≤ INT_MAX) :
    (∀ v, v ≤ RAND_MAX → ∃ r1 r2 r3, r1 ≤ RAND_MAX ∧ r2 ≤ RAND_MAX ∧ r3 ≤ RAND_MAX ∧
      ∃ res, (ASIC_process_work P tick r1 r2 r3 w).result = some res ∧ res.nonce = v) ∧
    (∀ r1 r2 r3 res, r2 ≤ RAND_MAX →
      (ASIC_process_work P tick r1 r2 r3 w).result = some res →
      res.nonce = r2 ∧ res.nonce < 2147483648) := by
  simp only [INT_MAX] at hR
  constructor
  · intro v hvR
    have hfound : ((0 : Nat) % 100 : Int) < result_probability P w.sim w.G := by
      have hb := (clamp_probability_bounds
        (to_int P (FVal.mul (FVal.div (results_per_second w.sim w.G) (FVal.fin 10))
          (FVal.fin 100)))).1
      unfold result_probability
      omega
    refine ⟨0, v, 0, Nat.zero_le _, hvR, Nat.zero_le _, ?_⟩
    rw [ASIC_process_work_found P tick 0 v 0 w jobs valid hj hv hcd hfound]
    refine ⟨_, rfl, ?_⟩
    show v % 4294967296 = v
    omega
  · intro r1 r2 r3 res hr hres
    obtain ⟨-, -, -, hrec⟩ := ASIC_process_work_result_some P tick r1 r2 r3 w res hp hres
    rw [hrec]
    show r2 % 4294967296 = r2 ∧ r2 % 4294967296 < 2147483648
    omega

/-- C19 amended, at a concrete input: in the scenario world at tick 700 some outcome
of the random source gives the nonce 2^31 - 1. -/
theorem C19_nonce_is_rand_value_witness :
    ∃ r1 r2 r3, r1 ≤ INT_MAX ∧ r2 ≤ INT_MAX ∧ r3 ≤ INT_MAX ∧
      ∃ res, (ASIC_process_work hostPlatform 700 r1 r2 r3
          (initialWorld (profileState 400 672 1 1))).result = some res ∧
        res.nonce = 2147483647 :=
  (C19_nonce_is_rand_value hostPlatform 700 (initialWorld (profileState 400 672 1 1))
    emptyTable clearBitmap rfl rfl rfl scenario_tick_700_outside_cooldown
    INT_MAX (le_refl _)).1 2147483647 (by decide)

/-- C20: for every device profile and every draw `r`, `ASIC_init` returns
`1 + (r mod 3)`, which is 1, 2 or 3; the stored chip count is the returned value; the
working frequency is the profile's `default_frequency_mhz`; and nothing else changes
(`GlobalState`, the other statics, no effect).  The function has a single path. -/
theorem C20_init_chip_count (r : Nat) (w : World) :
    (ASIC_init r w).1 = 1 + r % 3 ∧
    ((ASIC_init r w).1 = 1 ∨ (ASIC_init r w).1 = 2 ∨ (ASIC_init r w).1 = 3) ∧
    (ASIC_init r w).2.sim.simulated_chip_count = (ASIC_init r w).1 ∧
    (ASIC_init r w).2.sim.simulated_frequency
      = (w.G.DEVICE_CONFIG.family.asic.default_frequency_mhz : ℚ) ∧
    (ASIC_init r w).2 = { w with sim := { w.sim with
      simulated_chip_count := 1 + r % 3,
      simulated_frequency := (w.G.DEVICE_CONFIG.family.asic.default_frequency_mhz : ℚ) } } := by
  have hmod : (1 + r % 3) % 256 = 1 + r % 3 := by omega
  refine ⟨hmod, ?_, rfl, rfl, ?_⟩
  · show (1 + r % 3) % 256 = 1 ∨ (1 + r % 3) % 256 = 2 ∨ (1 + r % 3) % 256 = 3
    omega
  · show ({ w with sim := { w.sim with
        simulated_chip_count := (1 + r % 3) % 256,
        simulated_frequency :=
          (w.G.DEVICE_CONFIG.family.asic.default_frequency_mhz : ℚ) } } : World) = _
    rw [hmod]

/-! ## Runs of the engine -/

/-- What a poll entered with no result pending does to the world: the pending flag is
clear again, frequency, counter, `GlobalState` and trace are untouched, and either the
call returned `NULL` and kept `last_result_time`, or it returned a result, the
cooldown had elapsed and `last_result_time` is the current tick. -/
theorem poll_step (P : Platform) (tick r1 r2 r3 : Nat) (w : World)
    (hp : w.sim.has_pending_result = false) :
    (ASIC_process_work P tick r1 r2 r3 w).w.sim.has_pending_result = false ∧
    (ASIC_process_work P tick r1 r2 r3 w).w.sim.simulated_frequency
      = w.sim.simulated_frequency ∧
    (ASIC_process_work P tick r1 r2 r3 w).w.sim.simulated_job_id_counter
      = w.sim.simulated_job_id_counter ∧
    (ASIC_process_work P tick r1 r2 r3 w).w.G = w.G ∧
    (ASIC_process_work P tick r1 r2 r3 w).w.trace = w.trace ∧
    (((ASIC_process_work P tick r1 r2 r3 w).result = none ∧
        (ASIC_process_work P tick r1 r2 r3 w).w.sim.last_result_time
          = w.sim.last_result_time) ∨
      ((ASIC_process_work P tick r1 r2 r3 w).result.isSome = true ∧
        (ASIC_process_work P tick r1 r2 r3 w).w.sim.last_result_time = tick % 4294967296 ∧
        ¬ sub32 tick w.sim.last_result_time
          < P.pdMS_TO_TICKS (min_cooldown_ms P w.sim w.G))) := by
  have hlog := log_performance_sim w P (tick % 4294967296)
  have hlogG := log_performance_G w P (tick % 4294967296)
  have hlogT := log_performance_trace w P (tick % 4294967296)
  cases hj : w.G.active_jobs with
  | none =>
    rw [ASIC_process_work_absent P tick r1 r2 r3 w (Or.inl hj)]
    exact ⟨hp, rfl, rfl, rfl, rfl, Or.inl ⟨rfl, rfl⟩⟩
  | some jobs =>
    cases hv : w.G.valid_jobs with
    | none =>
      rw [ASIC_process_work_absent P tick r1 r2 r3 w (Or.inr hv)]
      exact ⟨hp, rfl, rfl, rfl, rfl, Or.inl ⟨rfl, rfl⟩⟩
    | some valid =>
      by_cases hcd : sub32 tick w.sim.last_result_time
          < P.pdMS_TO_TICKS (min_cooldown_ms P w.sim w.G)
      · rw [ASIC_process_work_in_cooldown P tick r1 r2 r3 w jobs valid hj hv hcd]
        exact ⟨hp, rfl, rfl, rfl, rfl, Or.inl ⟨rfl, rfl⟩⟩
      · by_cases hfound : (r1 % 100 : Int) < result_probability P w.sim w.G
        · rw [ASIC_process_work_found P tick r1 r2 r3 w jobs valid hj hv hcd hfound]
          exact ⟨rfl, hlog.2.1, hlog.2.2.2.2.1, hlogG, hlogT, Or.inr ⟨rfl, rfl, hcd⟩⟩
        · rw [ASIC_process_work_not_found P tick r1 r2 r3 w jobs valid hj hv hp hcd hfound]
          exact ⟨hlog.2.2.2.2.2.2.1.trans hp, hlog.2.1, hlog.2.2.2.2.1, hlogG, hlogT,
            Or.inl ⟨rfl, hlog.2.2.2.2.2.2.2⟩⟩

/-- Every operation of the engine keeps the invariant. -/
theorem step_invariant (P : Platform) (w : World) (op : Op) (h : EngineInv w) :
    EngineInv (step P w op) := by
  obtain ⟨hc, hp⟩ := h
  cases op with
  | init r => exact ⟨hc, hp⟩
  | set_max_baud => exact ⟨hc, hp⟩
  | set_version_mask mask => exact ⟨hc, hp⟩
  | set_frequency f => exact ⟨hc, hp⟩
  | firmware G => exact ⟨hc, hp⟩
  | process_work tick r1 r2 r3 =>
    obtain ⟨h1, -, h3, -, -, -⟩ := poll_step P tick r1 r2 r3 w hp
    refine ⟨?_, h1⟩
    show (ASIC_process_work P tick r1 r2 r3 w).w.sim.simulated_job_id_counter < 128
    rw [h3]
    exact hc
  | send_work lock_result next_job =>
    cases next_job with
    | none => exact ⟨hc, hp⟩
    | some job =>
      show EngineInv (ASIC_send_work lock_result w (some job))
      cases hj : w.G.active_jobs with
      | none =>
        rw [ASIC_send_work_absent lock_result w job (Or.inl hj)]
        exact ⟨Nat.mod_lt _ (by norm_num), hp⟩
      | some jobs =>
        cases hv : w.G.valid_jobs with
        | none =>
          rw [ASIC_send_work_absent lock_result w job (Or.inr hv)]
          exact ⟨Nat.mod_lt _ (by norm_num), hp⟩
        | some valid =>
          rw [ASIC_send_work_allocated lock_result w job jobs valid hj hv]
          exact ⟨Nat.mod_lt _ (by norm_num), hp⟩

/-- The invariant holds after every sequence of operations from a world where it holds. -/
theorem run_invariant (P : Platform) (ops : List Op) (w : World) (h : EngineInv w) :
    EngineInv (run P w ops) := by
  induction ops generalizing w with
  | nil => exact h
  | cons op ops ih => exact ih (step P w op) (step_invariant P w op h)

/-- The invariant holds in the initial world, whatever `GlobalState` it is given. -/
theorem initialWorld_invariant (G : GlobalState) : EngineInv (initialWorld G) :=
  ⟨Nat.zero_lt_succ 127, rfl⟩

/-- The cooldown depends on the stored frequency and the device profile only. -/
theorem min_cooldown_ms_congr (P : Platform) (sim1 sim2 : SimState) (G1 G2 : GlobalState)
    (hf : sim1.simulated_frequency = sim2.simulated_frequency) (hG : G1 = G2) :
    min_cooldown_ms P sim1 G1 = min_cooldown_ms P sim2 G2 := by
  subst hG
  simp only [min_cooldown_ms, cooldown_seconds, results_per_second, expected_hashrate_ghs, hf]

/-- A poll does not change the cooldown of the next one. -/
theorem poll_keeps_cooldown (P : Platform) (tick r1 r2 r3 : Nat) (w : World)
    (hp : w.sim.has_pending_result = false) :
    min_cooldown_ms P (ASIC_process_work P tick r1 r2 r3 w).w.sim
        (ASIC_process_work P tick r1 r2 r3 w).w.G
      = min_cooldown_ms P w.sim w.G := by
  obtain ⟨-, hf, -, hG, -, -⟩ := poll_step P tick r1 r2 r3 w hp
  exact min_cooldown_ms_congr P _ _ _ _ hf hG

/-- A tick difference of `uint32_t` values that is not below `cd`, between a tick and
an earlier one, means at least `cd` ticks have passed. -/
theorem elapsed_of_sub32 (tick last L cd : Nat)
    (hlast : last % 4294967296 = L % 4294967296) (hL : L ≤ tick)
    (h : ¬ sub32 tick last < cd) : L + cd ≤ tick := by
  unfold sub32 at h
  omega

/-- Polls at non-decreasing ticks, none before tick `L`, from a world with no result
pending whose `last_result_time` is tick `L` as a `uint32_t`: every result comes at
least one cooldown after `L`, and any two results are at least one cooldown apart. -/
theorem pollAll_spaced_from (P : Platform) (polls : List (Nat × Nat × Nat × Nat)) :
    ∀ (w : World) (L : Nat), w.sim.has_pending_result = false →
      w.sim.last_result_time % 4294967296 = L % 4294967296 →
      (∀ p ∈ polls, L ≤ p.1) →
      polls.Pairwise (fun a b => a.1 ≤ b.1) →
      (∀ x ∈ pollAll P w polls, x.2.isSome = true →
        L + P.pdMS_TO_TICKS (min_cooldown_ms P w.sim w.G) ≤ x.1) ∧
      (pollAll P w polls).Pairwise (fun a b => a.2.isSome = true → b.2.isSome = true →
        a.1 + P.pdMS_TO_TICKS (min_cooldown_ms P w.sim w.G) ≤ b.1) := by
  induction polls with
  | nil =>
    intro w L _ _ _ _
    exact ⟨fun x hx => by simp [pollAll] at hx, by simp [pollAll]⟩
  | cons p rest ih =>
    intro w L hp hlast hL hsorted
    obtain ⟨tick, r1, r2, r3⟩ := p
    have hLt : L ≤ tick := hL (tick, r1, r2, r3) (List.mem_cons_self _ _)
    have hrestL : ∀ q ∈ rest, L ≤ q.1 := fun q hq => hL q (List.mem_cons_of_mem _ hq)
    obtain ⟨hhead, hsorted2⟩ := List.pairwise_cons.mp hsorted
    obtain ⟨hp2, -, -, -, -, hcase⟩ := poll_step P tick r1 r2 r3 w hp
    have hcd := poll_keeps_cooldown P tick r1 r2 r3 w hp
    show (∀ x ∈ (tick, (ASIC_process_work P tick r1 r2 r3 w).result)
          :: pollAll P (ASIC_process_work P tick r1 r2 r3 w).w rest, _) ∧
      List.Pairwise _ ((tick, (ASIC_process_work P tick r1 r2 r3 w).result)
          :: pollAll P (ASIC_process_work P tick r1 r2 r3 w).w rest)
    rcases hcase with ⟨hnone, hsame⟩ | ⟨hsome, hnow, hout⟩
    · obtain ⟨ih1, ih2⟩ := ih (ASIC_process_work P tick r1 r2 r3 w).w L hp2
        (by rw [hsame]; exact hlast) hrestL hsorted2
      rw [hcd] at ih1 ih2
      refine ⟨?_, List.pairwise_cons.mpr ⟨?_, ih2⟩⟩
      · intro x hx hsx
        rcases List.mem_cons.mp hx with rfl | hx
        · rw [hnone] at hsx
          simp at hsx
        · exact ih1 x hx hsx
      · intro x _ hsx
        rw [hnone] at hsx
        simp at hsx
    · have hLcd : L + P.pdMS_TO_TICKS (min_cooldown_ms P w.sim w.G) ≤ tick :=
        elapsed_of_sub32 tick _ L _ hlast hLt hout
      obtain ⟨ih1, ih2⟩ := ih (ASIC_process_work P tick r1 r2 r3 w).w tick hp2
        (by rw [hnow]; exact Nat.mod_mod _ _) (fun q hq => hhead q hq) hsorted2
      rw [hcd] at ih1 ih2
      refine ⟨?_, List.pairwise_cons.mpr ⟨?_, ih2⟩⟩
      · intro x hx hsx
        rcases List.mem_cons.mp hx with rfl | hx
        · exact hLcd
        · have := ih1 x hx hsx
          omega
      · intro x hx _ hsx
        exact ih1 x hx hsx

/-- C14: for any sequence of `ASIC_process_work` calls at non-decreasing ticks (the
scheduler's tick count, which `xTaskGetTickCount` reports modulo 2^32), started with
no result pending and with frequency and device profile fixed, any two calls that
return a result are at least `pdMS_TO_TICKS(min_cooldown_ms)` ticks apart. -/
theorem C14_results_spaced_by_cooldown (P : Platform) (polls : List (Nat × Nat × Nat × Nat))
    (w : World) (hp : w.sim.has_pending_result = false)
    (hsorted : polls.Pairwise (fun a b => a.1 ≤ b.1)) :
    (pollAll P w polls).Pairwise (fun a b => a.2.isSome = true → b.2.isSome = true →
      a.1 + P.pdMS_TO_TICKS (min_cooldown_ms P w.sim w.G) ≤ b.1) := by
  induction polls generalizing w with
  | nil => simp [pollAll]
  | cons p rest ih =>
    obtain ⟨tick, r1, r2, r3⟩ := p
    obtain ⟨hhead, hsorted2⟩ := List.pairwise_cons.mp hsorted
    obtain ⟨hp2, -, -, -, -, hcase⟩ := poll_step P tick r1 r2 r3 w hp
    have hcd := poll_keeps_cooldown P tick r1 r2 r3 w hp
    show List.Pairwise _ ((tick, (ASIC_process_work P tick r1 r2 r3 w).result)
          :: pollAll P (ASIC_process_work P tick r1 r2 r3 w).w rest)
    rcases hcase with ⟨hnone, -⟩ | ⟨-, hnow, -⟩
    · have ih2 := ih (ASIC_process_work P tick r1 r2 r3 w).w hp2 hsorted2
      rw [hcd] at ih2
      refine List.pairwise_cons.mpr ⟨?_, ih2⟩
      intro x _ hsx
      rw [hnone] at hsx
      simp at hsx
    · obtain ⟨ih1, ih2⟩ := pollAll_spaced_from P rest
        (ASIC_process_work P tick r1 r2 r3 w).w tick hp2
        (by rw [hnow]; exact Nat.mod_mod _ _) (fun q hq => hhead q hq) hsorted2
      rw [hcd] at ih1 ih2
      refine List.pairwise_cons.mpr ⟨?_, ih2⟩
      intro x hx _ hsx
      exact ih1 x hx hsx

/-- C14 at a concrete input: five polls of the scenario world on the example platform
(cooldown 500 ticks). -/
theorem C14_results_spaced_by_cooldown_witness :
    (pollAll hostPlatform (initialWorld (profileState 400 672 1 1))
        [(100, 5, 77, 9000), (499, 5, 6, 7), (600, 99, 1, 2), (700, 49, 123456, 5),
         (1300, 0, 1, 2)]).Pairwise
      (fun a b => a.2.isSome = true → b.2.isSome = true →
        a.1 + hostPlatform.pdMS_TO_TICKS
          (min_cooldown_ms hostPlatform (initialWorld (profileState 400 672 1 1)).sim
            (initialWorld (profileState 400 672 1 1)).G) ≤ b.1) :=
  C14_results_spaced_by_cooldown hostPlatform _ (initialWorld (profileState 400 672 1 1))
    rfl (by decide)

/-! ## Result polling: the cooldown against the specification's formula -/

/-- The bounded cooldown of a non-negative integer, as a maximum of a minimum. -/
theorem clamp_cooldown_toNat (t : Int) (h0 : 0 ≤ t) :
    (clamp_cooldown t.toNat : Int) = max 500 (min 10000 t) := by
  unfold clamp_cooldown
  dsimp only
  simp only [max_def, min_def]
  split_ifs <;> omega

/-- For a positive frequency and a positive profile the raw cooldown in milliseconds
is the finite value 1000 / expected_results_per_second. -/
theorem raw_cooldown_of_pos (sim : SimState) (G : GlobalState)
    (hf : 0 < sim.simulated_frequency)
    (hc : 0 < G.DEVICE_CONFIG.family.asic.small_core_count)
    (hn : 0 < G.DEVICE_CONFIG.family.asic_count)
    (hd : 0 < G.DEVICE_CONFIG.family.asic.difficulty) :
    FVal.mul (cooldown_seconds sim G) (FVal.fin 1000)
      = FVal.fin (1000 / ((sim.simulated_frequency
          * G.DEVICE_CONFIG.family.asic.small_core_count
          * G.DEVICE_CONFIG.family.asic_count / 1000 * 1000000000)
          / (G.DEVICE_CONFIG.family.asic.difficulty * 4294967296))) := by
  have hc2 : (0 : ℚ) < G.DEVICE_CONFIG.family.asic.small_core_count := by exact_mod_cast hc
  have hn2 : (0 : ℚ) < G.DEVICE_CONFIG.family.asic_count := by exact_mod_cast hn
  have hd2 : (0 : ℚ) < G.DEVICE_CONFIG.family.asic.difficulty := by exact_mod_cast hd
  have hden : (G.DEVICE_CONFIG.family.asic.difficulty : ℚ) * 4294967296 ≠ 0 := by positivity
  have hnum : sim.simulated_frequency * G.DEVICE_CONFIG.family.asic.small_core_count
      * G.DEVICE_CONFIG.family.asic_count / 1000 * 1000000000 ≠ 0 := by positivity
  have hrps : (sim.simulated_frequency * G.DEVICE_CONFIG.family.asic.small_core_count
      * G.DEVICE_CONFIG.family.asic_count / 1000 * 1000000000)
      / (G.DEVICE_CONFIG.family.asic.difficulty * 4294967296) ≠ 0 :=
    div_ne_zero hnum hden
  unfold cooldown_seconds results_per_second expected_hashrate_ghs
  rw [FVal.mul_fin, FVal.mul_fin, FVal.div_fin _ _ (by norm_num), FVal.mul_fin, FVal.mul_fin,
    FVal.div_fin _ _ hden, FVal.div_fin _ _ hrps, FVal.mul_fin]
  congr 1
  rw [one_div, div_eq_mul_inv (1000 : ℚ), mul_comm]

/-- Where the code and the specification's formula agree: for a positive frequency and
a positive profile whose raw cooldown is below 2^32 ms, `min_cooldown_ms` is
1000 / expected_results_per_second truncated and clamped to [500, 10000]. -/
theorem min_cooldown_ms_eq_spec_in_range (P : Platform) (sim : SimState) (G : GlobalState)
    (hf : 0 < sim.simulated_frequency)
    (hc : 0 < G.DEVICE_CONFIG.family.asic.small_core_count)
    (hn : 0 < G.DEVICE_CONFIG.family.asic_count)
    (hd : 0 < G.DEVICE_CONFIG.family.asic.difficulty)
    (hrange : 1000 / ((sim.simulated_frequency
          * G.DEVICE_CONFIG.family.asic.small_core_count
          * G.DEVICE_CONFIG.family.asic_count / 1000 * 1000000000)
          / (G.DEVICE_CONFIG.family.asic.difficulty * 4294967296)) < 4294967296) :
    (min_cooldown_ms P sim G : Int)
      = spec_min_cooldown_ms sim.simulated_frequency
          G.DEVICE_CONFIG.family.asic.small_core_count
          G.DEVICE_CONFIG.family.asic_count
          G.DEVICE_CONFIG.family.asic.difficulty := by
  have hc2 : (0 : ℚ) < G.DEVICE_CONFIG.family.asic.small_core_count := by exact_mod_cast hc
  have hn2 : (0 : ℚ) < G.DEVICE_CONFIG.family.asic_count := by exact_mod_cast hn
  have hd2 : (0 : ℚ) < G.DEVICE_CONFIG.family.asic.difficulty := by exact_mod_cast hd
  have h0 : (0 : ℚ) ≤ 1000 / ((sim.simulated_frequency
          * G.DEVICE_CONFIG.family.asic.small_core_count
          * G.DEVICE_CONFIG.family.asic_count / 1000 * 1000000000)
          / (G.DEVICE_CONFIG.family.asic.difficulty * 4294967296)) := by positivity
  have hb := truncQ_bounds _ 4294967296 h0 (by exact_mod_cast hrange)
  unfold min_cooldown_ms spec_min_cooldown_ms
  rw [raw_cooldown_of_pos sim G hf hc hn hd]
  simp only [to_uint32, if_pos hb]
  exact clamp_cooldown_toNat _ hb.1

/-- C12, evaluated on the code where the claim fails: frequency 1 MHz, one core per
chip, one chip, difficulty 2000 (all positive).  The raw cooldown is 2^33 ms, which
`uint32_t` cannot hold, so `min_cooldown_ms` is whatever the platform's out-of-range
conversion gives, bounded; on the example platform (the conversion keeps the low 32
bits, here 0) it is 500, while the specification's formula gives 10000. -/
theorem C12_raw_cooldown_beyond_uint32 :
    FVal.mul (cooldown_seconds { simulated_frequency := 1 } (profileState 400 1 1 2000))
        (FVal.fin 1000) = FVal.fin 8589934592 ∧
    (∀ P : Platform,
      min_cooldown_ms P { simulated_frequency := 1 } (profileState 400 1 1 2000)
        = clamp_cooldown (P.oor_uint32 (FVal.fin 8589934592))) ∧
    min_cooldown_ms hostPlatform { simulated_frequency := 1 } (profileState 400 1 1 2000)
      = 500 ∧
    spec_min_cooldown_ms 1 1 1 2000 = 10000 := by
  have hraw : FVal.mul
      (cooldown_seconds { simulated_frequency := 1 } (profileState 400 1 1 2000))
      (FVal.fin 1000) = FVal.fin 8589934592 := by
    rw [raw_cooldown_of_pos _ _ (by norm_num) (by decide) (by decide) (by decide)]
    simp only [profileState]
    norm_num
  have htr : truncQ 8589934592 = 8589934592 := by
    unfold truncQ
    rw [if_pos (by norm_num)]
    exact Int.floor_eq_iff.mpr ⟨by norm_num, by norm_num⟩
  have hall : ∀ P : Platform,
      min_cooldown_ms P { simulated_frequency := 1 } (profileState 400 1 1 2000)
        = clamp_cooldown (P.oor_uint32 (FVal.fin 8589934592)) := by
    intro P
    unfold min_cooldown_ms
    rw [hraw]
    simp only [to_uint32, htr]
    rw [if_neg (by norm_num)]
  refine ⟨hraw, hall, ?_, ?_⟩
  · rw [hall hostPlatform]
    simp only [hostPlatform, htr]
    decide
  · unfold spec_min_cooldown_ms
    have hq : (1000 : ℚ) / (((1 : ℚ) * (1 : ℕ) * (1 : ℕ) / 1000 * 1000000000)
        / ((2000 : ℕ) * 4294967296)) = 8589934592 := by norm_num
    rw [hq, htr]
    decide

/-- The nearest integer is at least the floor. -/
theorem roundHalfEven_floor_le (y : ℚ) : ⌊y⌋ ≤ roundHalfEven y := by
  unfold roundHalfEven
  split_ifs <;> omega

/-- The nearest integer is at most the floor plus one. -/
theorem roundHalfEven_le_floor_add_one (y : ℚ) : roundHalfEven y ≤ ⌊y⌋ + 1 := by
  unfold roundHalfEven
  split_ifs <;> omega

/-- The nearest integer is within one half of the value. -/
theorem roundHalfEven_abs_sub_le (y : ℚ) : |(roundHalfEven y : ℚ) - y| ≤ 1 / 2 := by
  have h1 := Int.floor_le y
  have h2 := Int.lt_floor_add_one y
  rw [abs_le]
  unfold roundHalfEven
  split_ifs with ha hb hc
  · constructor <;> linarith
  · push_cast
    constructor <;> linarith
  · constructor <;> linarith
  · push_cast
    constructor <;> linarith

/-- An integer closer than one half to the value is the nearest integer. -/
theorem roundHalfEven_of_near (y : ℚ) (n : Int) (h : |y - (n : ℚ)| < 1 / 2) :
    roundHalfEven y = n := by
  rw [abs_lt] at h
  have h1 := roundHalfEven_abs_sub_le y
  rw [abs_le] at h1
  have h2 : ((roundHalfEven y - n : Int) : ℚ) < 1 := by push_cast; linarith
  have h3 : (-1 : ℚ) < ((roundHalfEven y - n : Int) : ℚ) := by push_cast; linarith
  have h4 : roundHalfEven y - n < 1 := by exact_mod_cast h2
  have h5 : -1 < roundHalfEven y - n := by exact_mod_cast h3
  omega

/-- An integer is its own nearest integer. -/
theorem roundHalfEven_intCast (n : Int) : roundHalfEven (n : ℚ) = n :=
  roundHalfEven_of_near _ n (by simp)

/-- Rounding to the nearest integer is monotone. -/
theorem roundHalfEven_mono (y1 y2 : ℚ) (h : y1 ≤ y2) : roundHalfEven y1 ≤ roundHalfEven y2 := by
  have hf : ⌊y1⌋ ≤ ⌊y2⌋ := Int.floor_le_floor h
  rcases hf.lt_or_eq with hlt | heq
  · calc roundHalfEven y1 ≤ ⌊y1⌋ + 1 := roundHalfEven_le_floor_add_one y1
      _ ≤ ⌊y2⌋ := hlt
      _ ≤ roundHalfEven y2 := roundHalfEven_floor_le y2
  · unfold roundHalfEven
    rw [heq]
    have hq : y1 - (⌊y2⌋ : ℚ) ≤ y2 - (⌊y2⌋ : ℚ) := by linarith
    split_ifs <;> first | omega | (exfalso; linarith)

/-- The start of a binade is positive. -/
theorem binade_pos (x : ℚ) : 0 < binade x := zpow_pos (by norm_num) _

/-- A positive value is at least the start of its binade. -/
theorem binade_le (x : ℚ) (hx : 0 < x) : binade x ≤ x := by
  have h := Int.zpow_log_le_self (b := 2) (by norm_num) hx
  simpa [binade] using h

/-- A value is below the end of its binade. -/
theorem lt_two_binade (x : ℚ) : x < 2 * binade x := by
  have h := Int.lt_zpow_succ_log_self (b := 2) (R := ℚ) (by norm_num) x
  rw [zpow_add_one₀ (by norm_num)] at h
  have h2 : x < (2 : ℚ) ^ Int.log 2 x * 2 := by simpa using h
  unfold binade
  linarith

/-- The unit in the last place is 2^-23 of the start of the binade. -/
theorem ulp32_eq (x : ℚ) : ulp32 x = binade x / 8388608 := by
  unfold ulp32 binade
  rw [zpow_sub₀ (by norm_num : (2 : ℚ) ≠ 0)]
  norm_num

/-- The unit in the last place is positive. -/
theorem ulp32_pos (x : ℚ) : 0 < ulp32 x := by
  rw [ulp32_eq]
  exact div_pos (binade_pos x) (by norm_num)

/-- Of two ordered positive values, the larger lies in the same binade or in a later one. -/
theorem binade_mono (x y : ℚ) (hx : 0 < x) (h : x ≤ y) :
    binade x = binade y ∨ 2 * binade x ≤ binade y := by
  have hl : Int.log 2 x ≤ Int.log 2 y := Int.log_mono_right hx h
  rcases hl.lt_or_eq with hlt | heq
  · right
    have h1 : Int.log 2 x + 1 ≤ Int.log 2 y := hlt
    have h2 : (2 : ℚ) ^ (Int.log 2 x + 1) ≤ (2 : ℚ) ^ Int.log 2 y :=
      zpow_le_zpow_right₀ (by norm_num) h1
    rw [zpow_add_one₀ (by norm_num)] at h2
    unfold binade
    linarith
  · left
    unfold binade
    rw [heq]

/-- The scaled significand of a positive `x` lies between 2^23 and 2^24. -/
theorem scaled_bounds (x : ℚ) (hx : 0 < x) :
    (8388608 : ℚ) ≤ x / ulp32 x ∧ x / ulp32 x < 16777216 := by
  have hp := binade_pos x
  have h1 := binade_le x hx
  have h2 := lt_two_binade x
  rw [ulp32_eq]
  constructor
  · rw [le_div_iff₀ (div_pos hp (by norm_num))]
    linarith
  · rw [div_lt_iff₀ (div_pos hp (by norm_num))]
    linarith

/-- The significand of a rounded positive value lies between 2^23 and 2^24. -/
theorem significand_bounds (x : ℚ) (hx : 0 < x) :
    8388608 ≤ roundHalfEven (x / ulp32 x) ∧ roundHalfEven (x / ulp32 x) ≤ 16777216 := by
  obtain ⟨h1, h2⟩ := scaled_bounds x hx
  constructor
  · have := roundHalfEven_mono ((8388608 : Int) : ℚ) (x / ulp32 x) (by push_cast; exact h1)
    rwa [roundHalfEven_intCast] at this
  · have := roundHalfEven_mono (x / ulp32 x) ((16777216 : Int) : ℚ) (by push_cast; exact h2.le)
    rwa [roundHalfEven_intCast] at this

/-- A rounded positive value stays in the closed binade of its argument. -/
theorem roundPos32_bounds (x : ℚ) (hx : 0 < x) :
    binade x ≤ roundPos32 x ∧ roundPos32 x ≤ 2 * binade x := by
  obtain ⟨h1, h2⟩ := significand_bounds x hx
  have h1q : (8388608 : ℚ) ≤ (roundHalfEven (x / ulp32 x) : ℚ) := by exact_mod_cast h1
  have h2q : (roundHalfEven (x / ulp32 x) : ℚ) ≤ 16777216 := by exact_mod_cast h2
  have hp := binade_pos x
  have hu := ulp32_eq x
  have hupos := ulp32_pos x
  unfold roundPos32
  generalize (roundHalfEven (x / ulp32 x) : ℚ) = n at h1q h2q ⊢
  constructor
  · have := mul_le_mul_of_nonneg_right h1q hupos.le
    rw [hu] at this ⊢
    linarith
  · have := mul_le_mul_of_nonneg_right h2q hupos.le
    rw [hu] at this ⊢
    linarith

/-- A rounded positive value is positive. -/
theorem roundPos32_pos (x : ℚ) (hx : 0 < x) : 0 < roundPos32 x :=
  lt_of_lt_of_le (binade_pos x) (roundPos32_bounds x hx).1

/-- The rounding error of a positive value is at most half a unit in the last place,
so at most 2^-24 of the value. -/
theorem roundPos32_error (x : ℚ) (hx : 0 < x) :
    |roundPos32 x - x| ≤ x / 16777216 := by
  have hu := ulp32_pos x
  have he := roundHalfEven_abs_sub_le (x / ulp32 x)
  have h1 := binade_le x hx
  have hue := ulp32_eq x
  have heq : roundPos32 x - x = ((roundHalfEven (x / ulp32 x) : ℚ) - x / ulp32 x) * ulp32 x := by
    unfold roundPos32
    field_simp
  rw [heq, abs_mul, abs_of_pos hu]
  have := mul_le_mul_of_nonneg_right he hu.le
  generalize |(roundHalfEven (x / ulp32 x) : ℚ) - x / ulp32 x| = d at this ⊢
  rw [hue] at this ⊢
  linarith

/-- Rounding of positive values is monotone. -/
theorem roundPos32_mono (x y : ℚ) (hx : 0 < x) (h : x ≤ y) : roundPos32 x ≤ roundPos32 y := by
  have hy : 0 < y := lt_of_lt_of_le hx h
  rcases binade_mono x y hx h with heq | hlt
  · have hu : ulp32 x = ulp32 y := by rw [ulp32_eq, ulp32_eq, heq]
    unfold roundPos32
    rw [hu]
    have hq : x / ulp32 y ≤ y / ulp32 y := div_le_div_of_nonneg_right h (ulp32_pos y).le
    have := roundHalfEven_mono _ _ hq
    exact mul_le_mul_of_nonneg_right (by exact_mod_cast this) (ulp32_pos y).le
  · calc roundPos32 x ≤ 2 * binade x := (roundPos32_bounds x hx).2
      _ ≤ binade y := hlt
      _ ≤ roundPos32 y := (roundPos32_bounds y hy).1

/-- Rounding of a positive value. -/
theorem round32_of_pos (x : ℚ) (hx : 0 < x) : round32 x = roundPos32 x := by
  unfold round32
  rw [if_pos hx]

/-- Rounding of a negative value: the rounded magnitude with the sign. -/
theorem round32_of_neg (x : ℚ) (hx : x < 0) : round32 x = -roundPos32 (-x) := by
  unfold round32
  rw [if_neg (not_lt.mpr hx.le), if_pos hx]

/-- Zero is rounded to zero. -/
theorem round32_zero : round32 0 = 0 := by
  unfold round32
  simp

/-- Rounding commutes with the change of sign. -/
theorem round32_neg (x : ℚ) : round32 (-x) = -round32 x := by
  rcases lt_trichotomy x 0 with h | h | h
  · rw [round32_of_neg x h, round32_of_pos (-x) (by linarith), neg_neg]
  · subst h
    simp [round32_zero]
  · rw [round32_of_pos x h, round32_of_neg (-x) (by linarith), neg_neg]

/-- Rounding keeps the sign. -/
theorem round32_pos (x : ℚ) (hx : 0 < x) : 0 < round32 x := by
  rw [round32_of_pos x hx]
  exact roundPos32_pos x hx

/-- Rounding keeps a value non-negative. -/
theorem round32_nonneg (x : ℚ) (hx : 0 ≤ x) : 0 ≤ round32 x := by
  rcases hx.lt_or_eq with h | h
  · exact (round32_pos x h).le
  · rw [← h, round32_zero]

/-- Rounding to binary32 is monotone. -/
theorem round32_mono (x y : ℚ) (h : x ≤ y) : round32 x ≤ round32 y := by
  rcases lt_trichotomy x 0 with hx | hx | hx
  · rcases lt_trichotomy y 0 with hy | hy | hy
    · rw [round32_of_neg x hx, round32_of_neg y hy]
      have := roundPos32_mono (-y) (-x) (by linarith) (by linarith)
      linarith
    · subst hy
      rw [round32_of_neg x hx, round32_zero]
      have := roundPos32_pos (-x) (by linarith)
      linarith
    · rw [round32_of_neg x hx]
      have h1 := roundPos32_pos (-x) (by linarith)
      have h2 := round32_pos y hy
      linarith
  · subst hx
    rw [round32_zero]
    exact round32_nonneg y h
  · have hy : 0 < y := lt_of_lt_of_le hx h
    rw [round32_of_pos x hx, round32_of_pos y hy]
    exact roundPos32_mono x y hx h

/-- The relative rounding error is at most 2^-24. -/
theorem round32_error (x : ℚ) : |round32 x - x| ≤ |x| / 16777216 := by
  rcases lt_trichotomy x 0 with hx | hx | hx
  · rw [round32_of_neg x hx, abs_of_neg hx]
    have := roundPos32_error (-x) (by linarith)
    have e : -roundPos32 (-x) - x = -(roundPos32 (-x) - -x) := by ring
    rw [e, abs_neg]
    exact this
  · subst hx
    simp [round32_zero]
  · rw [round32_of_pos x hx, abs_of_pos hx]
    exact roundPos32_error x hx

/-- The binade of a value between two consecutive powers of two. -/
theorem binade_eq_of (x : ℚ) (e : Int) (hx : 0 < x) (h1 : (2 : ℚ) ^ e ≤ x)
    (h2 : x < (2 : ℚ) ^ (e + 1)) : binade x = (2 : ℚ) ^ e := by
  have ha : e ≤ Int.log 2 x := by
    rw [← Int.zpow_le_iff_le_log (by norm_num) hx]
    simpa using h1
  have hb : Int.log 2 x < e + 1 := by
    rw [← Int.lt_zpow_iff_log_lt (by norm_num) hx]
    simpa using h2
  have : Int.log 2 x = e := by omega
  unfold binade
  rw [this]

/-- Evaluation of the rounding at a positive value: with `p` the power of two of its
binade and `n` the integer nearest to the scaled value (no tie), the result is
`n * p / 2^23`. -/
theorem roundPos32_eq_of (x p : ℚ) (e n : Int) (hp : p = (2 : ℚ) ^ e) (hx : 0 < x)
    (h1 : p ≤ x) (h2 : x < 2 * p) (hn : |x / (p / 8388608) - (n : ℚ)| < 1 / 2) :
    roundPos32 x = (n : ℚ) * (p / 8388608) := by
  have hb : binade x = p := by
    rw [hp]
    apply binade_eq_of x e hx
    · rw [← hp]
      exact h1
    · rw [zpow_add_one₀ (by norm_num), ← hp]
      linarith
  unfold roundPos32
  rw [ulp32_eq, hb, roundHalfEven_of_near _ n hn]

/-- Evaluation of `round32` at a positive value, as for `roundPos32`. -/
theorem round32_eq_of (x p : ℚ) (e n : Int) (hp : p = (2 : ℚ) ^ e) (hx : 0 < x)
    (h1 : p ≤ x) (h2 : x < 2 * p) (hn : |x / (p / 8388608) - (n : ℚ)| < 1 / 2) :
    round32 x = (n : ℚ) * (p / 8388608) := by
  rw [round32_of_pos x hx]
  exact roundPos32_eq_of x p e n hp hx h1 h2 hn

/-- The value 1 is a binary32 value. -/
theorem round32_one : round32 1 = 1 := by
  rw [round32_eq_of 1 1 0 8388608 (by norm_num) (by norm_num) (by norm_num) (by norm_num)
    (by norm_num)]
  norm_num

/-- The value 1/2 is a binary32 value. -/
theorem round32_half : round32 (1 / 2) = 1 / 2 := by
  rw [round32_eq_of (1 / 2) (1 / 2) (-1) 8388608 (by norm_num) (by norm_num) (by norm_num)
    (by norm_num) (by norm_num)]
  norm_num

/-- The magnitude of a rounded value, against that of its argument. -/
theorem round32_abs_le (x : ℚ) : |round32 x| ≤ |x| * (1 + 1 / 16777216) := by
  have h := round32_error x
  have h2 : |round32 x| ≤ |round32 x - x| + |x| := by
    have := abs_add (round32 x - x) x
    simpa using this
  linarith

/-- A positive binary32 value is an integer multiple of its unit in the last place. -/
theorem binary32_significand (f : ℚ) (hf : 0 < f) (hb : binary32 f) :
    f = (roundHalfEven (f / ulp32 f) : ℚ) * (binade f / 8388608) := by
  unfold binary32 at hb
  rw [round32_of_pos f hf] at hb
  unfold roundPos32 at hb
  rw [← ulp32_eq]
  exact hb.symm

/-- Two different positive binary32 values are apart by at least 2^-24 of the larger. -/
theorem binary32_gap (f1 f2 : ℚ) (h1 : 0 < f1) (h12 : f1 < f2)
    (hb1 : binary32 f1) (hb2 : binary32 f2) : f2 / 16777216 ≤ f2 - f1 := by
  have h2 : 0 < f2 := lt_trans h1 h12
  have e1 := binary32_significand f1 h1 hb1
  have e2 := binary32_significand f2 h2 hb2
  have hp1 := binade_pos f1
  have hp2 := binade_pos f2
  have hl1 := binade_le f1 h1
  have hu1 := lt_two_binade f1
  have hl2 := binade_le f2 h2
  have hu2 := lt_two_binade f2
  generalize roundHalfEven (f1 / ulp32 f1) = n1 at e1
  generalize roundHalfEven (f2 / ulp32 f2) = n2 at e2
  rcases binade_mono f1 f2 h1 h12.le with heq | hlt
  · rw [heq] at e1
    have hupos : 0 < binade f2 / 8388608 := div_pos hp2 (by norm_num)
    have hlt : (n1 : ℚ) < (n2 : ℚ) := by
      by_contra hcon
      push_neg at hcon
      have := mul_le_mul_of_nonneg_right hcon hupos.le
      rw [← e1, ← e2] at this
      linarith
    have hlt2 : n1 < n2 := by exact_mod_cast hlt
    have hle : (n1 : ℚ) + 1 ≤ (n2 : ℚ) := by exact_mod_cast hlt2
    have := mul_le_mul_of_nonneg_right hle hupos.le
    rw [add_mul, ← e1, ← e2] at this
    linarith
  · have hupos : 0 < binade f1 / 8388608 := div_pos hp1 (by norm_num)
    have hn : (n1 : ℚ) < 16777216 := by
      by_contra hcon
      push_neg at hcon
      have := mul_le_mul_of_nonneg_right hcon hupos.le
      rw [← e1] at this
      linarith
    have hn2 : n1 < 16777216 := by exact_mod_cast hn
    have hn3 : (n1 : ℚ) ≤ 16777215 := by
      have : n1 ≤ 16777215 := by omega
      exact_mod_cast this
    have := mul_le_mul_of_nonneg_right hn3 hupos.le
    rw [← e1] at this
    linarith

/-- A tie above an even integer is rounded to that integer. -/
theorem roundHalfEven_of_tie_even (y : ℚ) (n : Int) (h : y = (n : ℚ) + 1 / 2)
    (he : n % 2 = 0) : roundHalfEven y = n := by
  have hfl : ⌊y⌋ = n := by
    rw [Int.floor_eq_iff, h]
    constructor <;> linarith
  unfold roundHalfEven
  rw [hfl, h]
  norm_num [he]

/-- Evaluation of the rounding at a tie whose lower neighbour is even. -/
theorem round32_eq_of_tie_even (x p : ℚ) (e n : Int) (hp : p = (2 : ℚ) ^ e) (hx : 0 < x)
    (h1 : p ≤ x) (h2 : x < 2 * p) (hn : x / (p / 8388608) = (n : ℚ) + 1 / 2)
    (he : n % 2 = 0) : round32 x = (n : ℚ) * (p / 8388608) := by
  have hb : binade x = p := by
    rw [hp]
    apply binade_eq_of x e hx
    · rw [← hp]
      exact h1
    · rw [zpow_add_one₀ (by norm_num), ← hp]
      linarith
  rw [round32_of_pos x hx]
  unfold roundPos32
  rw [ulp32_eq, hb, roundHalfEven_of_tie_even _ n hn he]

/-- The literal `0.002f` is 8589935 / 2^32. -/
theorem lit_0_002f_eq : lit_0_002f = 8589935 / 4294967296 := by
  unfold lit_0_002f
  rw [round32_eq_of (2 / 1000) (1 / 512) (-9) 8589935 (by norm_num) (by norm_num)
    (by norm_num) (by norm_num) (by rw [abs_lt]; constructor <;> norm_num)]
  norm_num

/-- The centred draw lies between -1/2 and 1/2. -/
theorem centered_draw_abs_le (RAND_MAX r : Nat) (hR : 0 < RAND_MAX) (hr : r ≤ RAND_MAX) :
    |centered_draw RAND_MAX r| ≤ 1 / 2 := by
  have ha : 0 ≤ round32 (r : ℚ) := round32_nonneg _ (by exact_mod_cast Nat.zero_le r)
  have hb : 1 ≤ round32 (RAND_MAX : ℚ) := by
    have := round32_mono 1 (RAND_MAX : ℚ) (by exact_mod_cast hR)
    rwa [round32_one] at this
  have hab : round32 (r : ℚ) ≤ round32 (RAND_MAX : ℚ) :=
    round32_mono _ _ (by exact_mod_cast hr)
  have hq0 : 0 ≤ round32 (r : ℚ) / round32 (RAND_MAX : ℚ) := div_nonneg ha (by linarith)
  have hq1 : round32 (r : ℚ) / round32 (RAND_MAX : ℚ) ≤ 1 := by
    rw [div_le_one (by linarith)]
    exact hab
  have h0 : 0 ≤ round32 (round32 (r : ℚ) / round32 (RAND_MAX : ℚ)) := round32_nonneg _ hq0
  have h1 : round32 (round32 (r : ℚ) / round32 (RAND_MAX : ℚ)) ≤ 1 := by
    have := round32_mono _ _ hq1
    rwa [round32_one] at this
  unfold centered_draw
  rw [abs_le]
  constructor
  · have := round32_mono (-(1 / 2))
      (round32 (round32 (r : ℚ) / round32 (RAND_MAX : ℚ)) - 1 / 2) (by linarith)
    rw [round32_neg, round32_half] at this
    exact this
  · have := round32_mono
      (round32 (round32 (r : ℚ) / round32 (RAND_MAX : ℚ)) - 1 / 2) (1 / 2) (by linarith)
    rwa [round32_half] at this

/-- The jitter factor `(centred draw) * 0.002f`, rounded, is at most
0.001 + 2^-33 in magnitude. -/
theorem jitter_factor_abs_le (d : ℚ) (hd : |d| ≤ 1 / 2) :
    |round32 (d * lit_0_002f)| ≤ 1 / 1000 + 1 / 8589934592 := by
  have h := round32_abs_le (d * lit_0_002f)
  rw [lit_0_002f_eq, abs_mul, abs_of_pos (by norm_num : (0 : ℚ) < 8589935 / 4294967296)] at h
  rw [lit_0_002f_eq]
  have hd0 := abs_nonneg d
  nlinarith

/-- The jitter term `f * factor` of the estimator, rounded: at most
(0.001 + 2^-32) f in magnitude. -/
theorem jitter_term_abs_le (f d : ℚ) (hf : 0 < f) (hd : |d| ≤ 1 / 2) :
    |round32 (f * round32 (d * lit_0_002f))| ≤ f * (1 / 1000 + 1 / 4294967296) := by
  have hm := jitter_factor_abs_le d hd
  have h := round32_abs_le (f * round32 (d * lit_0_002f))
  rw [abs_mul, abs_of_pos hf] at h
  have hm0 := abs_nonneg (round32 (d * lit_0_002f))
  nlinarith

/-- A positive value plus a jitter term of at most (0.001 + 2^-32) of it, rounded:
positive and within 0.1 % + 2^-23 of the value. -/
theorem jittered_sum_bounds (f t : ℚ) (hf : 0 < f)
    (ht : |t| ≤ f * (1 / 1000 + 1 / 4294967296)) :
    0 < round32 (f + t) ∧ |round32 (f + t) - f| ≤ f * (1 / 1000 + 1 / 8388608) := by
  rw [abs_le] at ht
  have hs : 0 < f + t := by nlinarith
  refine ⟨round32_pos _ hs, ?_⟩
  have he := round32_error (f + t)
  rw [abs_of_pos hs] at he
  rw [abs_le] at he ⊢
  constructor <;> nlinarith

/-- The jittered value is monotone in a binary32 value `f`, for a fixed factor `m`
of magnitude at most 1/3. -/
theorem jittered_mono (m f1 f2 : ℚ) (hm : |m| ≤ 1 / 3) (h1 : 0 < f1) (h12 : f1 ≤ f2)
    (hb1 : binary32 f1) (hb2 : binary32 f2) :
    round32 (f1 + round32 (f1 * m)) ≤ round32 (f2 + round32 (f2 * m)) := by
  rcases h12.eq_or_lt with heq | hlt
  · rw [heq]
  apply round32_mono
  have h2 : 0 < f2 := lt_trans h1 hlt
  rcases le_or_lt 0 m with hm0 | hm0
  · have := round32_mono (f1 * m) (f2 * m) (mul_le_mul_of_nonneg_right h12 hm0)
    linarith
  · have hgap := binary32_gap f1 f2 h1 hlt hb1 hb2
    have e1 := round32_error (f1 * m)
    have e2 := round32_error (f2 * m)
    rw [abs_mul, abs_of_pos h1, abs_of_neg hm0, abs_le] at e1
    rw [abs_mul, abs_of_pos h2, abs_of_neg hm0, abs_le] at e2
    rw [abs_of_neg hm0] at hm
    have ha : 0 < -m := by linarith
    have p1 : 0 ≤ (f2 - f1 - f2 / 16777216) * (1 - -m) :=
      mul_nonneg (by linarith) (by linarith)
    have p2 : 0 ≤ f2 * (1 - 3 * -m) := mul_nonneg h2.le (by linarith)
    have p3 : 0 ≤ (f2 - f1) * -m := mul_nonneg (by linarith) ha.le
    nlinarith

/-! ## The job-pacing estimator -/

/-- The bounded value lies between 100 and 5000. -/
theorem clamp_100_5000_bounds (q : ℚ) : 100 ≤ clamp_100_5000 q ∧ clamp_100_5000 q ≤ 5000 := by
  unfold clamp_100_5000
  dsimp only
  split_ifs <;> constructor <;> linarith

/-- Bounding keeps the order. -/
theorem clamp_100_5000_mono (q1 q2 : ℚ) (h : q1 ≤ q2) :
    clamp_100_5000 q1 ≤ clamp_100_5000 q2 := by
  unfold clamp_100_5000
  dsimp only
  split_ifs <;> linarith

/-- The rounded jitter factor of a draw is at most 0.001 + 2^-33 in magnitude. -/
theorem draw_factor_abs_le (RAND_MAX r : Nat) (hR : 0 < RAND_MAX) (hr : r ≤ RAND_MAX) :
    |round32 (centered_draw RAND_MAX r * lit_0_002f)| ≤ 1 / 1000 + 1 / 8589934592 :=
  jitter_factor_abs_le _ (centered_draw_abs_le RAND_MAX r hR hr)

/-- The jittered frequency is positive and differs from the stored frequency by at
most 0.1 % + 2^-23 of it. -/
theorem varied_frequency_bounds (RAND_MAX r : Nat) (sim : SimState)
    (hR : 0 < RAND_MAX) (hr : r ≤ RAND_MAX) (hf : 0 < sim.simulated_frequency) :
    0 < varied_frequency RAND_MAX r sim ∧
    |varied_frequency RAND_MAX r sim - sim.simulated_frequency|
      ≤ sim.simulated_frequency * (1 / 1000 + 1 / 8388608) := by
  unfold varied_frequency
  exact jittered_sum_bounds _ _ hf
    (jitter_term_abs_le _ _ hf (centered_draw_abs_le RAND_MAX r hR hr))

/-- The estimator on a positive jittered frequency and a positive chip count: the
finite value 1000 * (400 / varied) / chips, bounded. -/
theorem job_freq_ms_of_pos (b : Bool) (varied : ℚ) (c : Nat) (hv : 0 < varied) (hc : 0 < c) :
    job_freq_ms_of b varied c = FVal.fin (clamp_100_5000 (400000 / (varied * c))) := by
  have hc2 : (c : ℚ) ≠ 0 := by exact_mod_cast hc.ne'
  unfold job_freq_ms_of
  rw [FVal.div_fin _ _ hv.ne', FVal.mul_fin, FVal.div_fin _ _ hc2]
  show FVal.fin (clamp_100_5000 (1000 * (400 / varied) / c)) = _
  congr 2
  field_simp
  ring

/-- C21: for a stored chip count of 1, 2 or 3, a positive stored frequency and every
draw of `rand()`, `ASIC_get_asic_job_frequency_ms` returns a finite value between 100
and 5000. -/
theorem C21_job_frequency_in_bounds (RAND_MAX r : Nat) (b : Bool) (w : World)
    (hR : 0 < RAND_MAX) (hr : r ≤ RAND_MAX)
    (hf : 0 < w.sim.simulated_frequency)
    (hc : w.sim.simulated_chip_count = 1 ∨ w.sim.simulated_chip_count = 2
      ∨ w.sim.simulated_chip_count = 3) :
    ∃ q, ASIC_get_asic_job_frequency_ms RAND_MAX r b w = FVal.fin q ∧ 100 ≤ q ∧ q ≤ 5000 := by
  have hv := (varied_frequency_bounds RAND_MAX r w.sim hR hr hf).1
  have hc0 : 0 < w.sim.simulated_chip_count := by omega
  unfold ASIC_get_asic_job_frequency_ms
  rw [job_freq_ms_of_pos b _ _ hv hc0]
  exact ⟨_, rfl, (clamp_100_5000_bounds _).1, (clamp_100_5000_bounds _).2⟩

/-- C21 at a concrete input: 400 MHz, two chips, the draw 0 out of `RAND_MAX` = 2^31 - 1. -/
theorem C21_job_frequency_in_bounds_witness :
    ∃ q, ASIC_get_asic_job_frequency_ms 2147483647 0 false
        { sim := { simulated_chip_count := 2 } } = FVal.fin q ∧ 100 ≤ q ∧ q ≤ 5000 :=
  C21_job_frequency_in_bounds 2147483647 0 false { sim := { simulated_chip_count := 2 } }
    (by decide) (by decide) (by show (0 : ℚ) < 400; norm_num) (Or.inr (Or.inl rfl))

/-- The estimator's value on a world with the given frequency and chip count. -/
theorem job_frequency_value (RAND_MAX r : Nat) (b : Bool) (w : World) (f : ℚ) (c : Nat)
    (hR : 0 < RAND_MAX) (hr : r ≤ RAND_MAX) (hf : 0 < f) (hc : 0 < c) :
    ASIC_get_asic_job_frequency_ms RAND_MAX r b
        { w with sim := { w.sim with simulated_frequency := f, simulated_chip_count := c } }
      = FVal.fin (clamp_100_5000
          (400000 / (round32 (f + round32 (f
              * round32 (centered_draw RAND_MAX r * lit_0_002f))) * c))) := by
  have hv := (varied_frequency_bounds RAND_MAX r
    { w.sim with simulated_frequency := f, simulated_chip_count := c } hR hr hf).1
  unfold ASIC_get_asic_job_frequency_ms
  rw [job_freq_ms_of_pos b _ _ hv hc]
  rfl

/-- C22: for a fixed draw of `rand()`, the value of `ASIC_get_asic_job_frequency_ms`
does not increase when the positive stored frequency grows (`f1 <= f2`, chip count
`c1`) nor when the chip count grows (`1 <= c1 <= c2`, in particular within 1..3,
frequency `f1`).  The stored frequency is a `float`: `f1` and `f2` are binary32
values. -/
theorem C22_job_frequency_monotone (RAND_MAX r : Nat) (b : Bool) (w : World)
    (f1 f2 : ℚ) (c1 c2 : Nat)
    (hR : 0 < RAND_MAX) (hr : r ≤ RAND_MAX)
    (hb1 : binary32 f1) (hb2 : binary32 f2)
    (hf1 : 0 < f1) (hf : f1 ≤ f2) (hc1 : 1 ≤ c1) (hc : c1 ≤ c2) :
    ∃ q11 q21 q12,
      ASIC_get_asic_job_frequency_ms RAND_MAX r b
        { w with sim := { w.sim with simulated_frequency := f1, simulated_chip_count := c1 } }
        = FVal.fin q11 ∧
      ASIC_get_asic_job_frequency_ms RAND_MAX r b
        { w with sim := { w.sim with simulated_frequency := f2, simulated_chip_count := c1 } }
        = FVal.fin q21 ∧
      ASIC_get_asic_job_frequency_ms RAND_MAX r b
        { w with sim := { w.sim with simulated_frequency := f1, simulated_chip_count := c2 } }
        = FVal.fin q12 ∧
      q21 ≤ q11 ∧ q12 ≤ q11 := by
  have hf2 : 0 < f2 := lt_of_lt_of_le hf1 hf
  have hc1p : 0 < c1 := hc1
  have hc2p : 0 < c2 := lt_of_lt_of_le hc1 hc
  have hc1q : (0 : ℚ) < c1 := by exact_mod_cast hc1p
  have hcq : (c1 : ℚ) ≤ c2 := by exact_mod_cast hc
  have hm : |round32 (centered_draw RAND_MAX r * lit_0_002f)| ≤ 1 / 3 :=
    le_trans (draw_factor_abs_le RAND_MAX r hR hr) (by norm_num)
  have hv1 : 0 < round32 (f1 + round32 (f1
      * round32 (centered_draw RAND_MAX r * lit_0_002f))) :=
    (jittered_sum_bounds _ _ hf1
      (jitter_term_abs_le _ _ hf1 (centered_draw_abs_le RAND_MAX r hR hr))).1
  have hv12 := jittered_mono (round32 (centered_draw RAND_MAX r * lit_0_002f)) f1 f2 hm
    hf1 hf hb1 hb2
  refine ⟨_, _, _, job_frequency_value RAND_MAX r b w f1 c1 hR hr hf1 hc1p,
    job_frequency_value RAND_MAX r b w f2 c1 hR hr hf2 hc1p,
    job_frequency_value RAND_MAX r b w f1 c2 hR hr hf1 hc2p, ?_, ?_⟩
  · apply clamp_100_5000_mono
    apply div_le_div_of_nonneg_left (by norm_num) (mul_pos hv1 hc1q)
    exact mul_le_mul_of_nonneg_right hv12 hc1q.le
  · apply clamp_100_5000_mono
    apply div_le_div_of_nonneg_left (by norm_num) (mul_pos hv1 hc1q)
    exact mul_le_mul_of_nonneg_left hcq hv1.le

/-- The value 400 is a binary32 value. -/
theorem binary32_400 : binary32 400 := by
  unfold binary32
  rw [round32_eq_of 400 256 8 13107200 (by norm_num) (by norm_num) (by norm_num)
    (by norm_num) (by rw [abs_lt]; constructor <;> norm_num)]
  norm_num

/-- The value 500 is a binary32 value. -/
theorem binary32_500 : binary32 500 := by
  unfold binary32
  rw [round32_eq_of 500 256 8 16384000 (by norm_num) (by norm_num) (by norm_num)
    (by norm_num) (by rw [abs_lt]; constructor <;> norm_num)]
  norm_num

/-- C22 at a concrete input: 400 MHz against 500 MHz and one chip against two. -/
theorem C22_job_frequency_monotone_witness :
    ∃ q11 q21 q12,
      ASIC_get_asic_job_frequency_ms 2147483647 7 false
        { (initialWorld {}) with sim := { (initialWorld {}).sim with
            simulated_frequency := 400, simulated_chip_count := 1 } } = FVal.fin q11 ∧
      ASIC_get_asic_job_frequency_ms 2147483647 7 false
        { (initialWorld {}) with sim := { (initialWorld {}).sim with
            simulated_frequency := 500, simulated_chip_count := 1 } } = FVal.fin q21 ∧
      ASIC_get_asic_job_frequency_ms 2147483647 7 false
        { (initialWorld {}) with sim := { (initialWorld {}).sim with
            simulated_frequency := 400, simulated_chip_count := 2 } } = FVal.fin q12 ∧
      q21 ≤ q11 ∧ q12 ≤ q11 :=
  C22_job_frequency_monotone 2147483647 7 false (initialWorld {}) 400 500 1 2
    (by decide) (by decide) binary32_400 binary32_500 (by norm_num) (by norm_num)
    (by decide) (by decide)

/-- The jitter factor of the largest draw: half of `0.002f`, a binary32 value. -/
theorem round32_factor_max :
    round32 (1 / 2 * (8589935 / 4294967296)) = 8589935 / 8589934592 := by
  rw [round32_eq_of (1 / 2 * (8589935 / 4294967296)) (1 / 1024) (-10) 8589935
    (by norm_num) (by norm_num) (by norm_num) (by norm_num)
    (by rw [abs_lt]; constructor <;> norm_num)]
  norm_num

/-- The smallest draw gives the centred value -1/2. -/
theorem centered_draw_zero (RAND_MAX : Nat) : centered_draw RAND_MAX 0 = -(1 / 2) := by
  unfold centered_draw
  have h3 : (0 : ℚ) - 1 / 2 = -(1 / 2) := by norm_num
  rw [Nat.cast_zero, round32_zero, zero_div, round32_zero, h3, round32_neg, round32_half]

/-- The jittered frequency at the smallest draw, by its three roundings. -/
theorem varied_frequency_zero_draw (sim : SimState) (t v : ℚ)
    (ht : round32 (sim.simulated_frequency * (8589935 / 8589934592)) = t)
    (hv : round32 (sim.simulated_frequency + -t) = v) :
    varied_frequency 2147483647 0 sim = v := by
  unfold varied_frequency
  rw [centered_draw_zero, lit_0_002f_eq, neg_mul, round32_neg, round32_factor_max, mul_neg,
    round32_neg, ht, hv]

/-- Between binary32 values the jittered frequency is not monotone in the stored
frequency: of two rationals 2^-26 apart near 400.57, neither of them a `float`, the
smaller gets the larger jittered frequency at the smallest draw.  The monotonicity
of the estimator is a property of `float` frequencies. -/
theorem varied_frequency_not_monotone_between_floats :
    (26881913723 / 67108864 : ℚ) < 6720478431 / 16777216 ∧
    varied_frequency 2147483647 0 { simulated_frequency := 6720478431 / 16777216 }
      < varied_frequency 2147483647 0 { simulated_frequency := 26881913723 / 67108864 } := by
  have t1 : round32 ((26881913723 / 67108864 : ℚ) * (8589935 / 8589934592))
      = 13440957 / 33554432 := by
    rw [round32_eq_of _ (1 / 4) (-2) 13440957 (by norm_num) (by norm_num) (by norm_num)
      (by norm_num) (by rw [abs_lt]; constructor <;> norm_num)]
    norm_num
  have v1 : round32 ((26881913723 / 67108864 : ℚ) + -(13440957 / 33554432))
      = 13112809 / 32768 := by
    rw [round32_eq_of _ 256 8 13112809 (by norm_num) (by norm_num) (by norm_num)
      (by norm_num) (by rw [abs_lt]; constructor <;> norm_num)]
    norm_num
  have t2 : round32 ((6720478431 / 16777216 : ℚ) * (8589935 / 8589934592))
      = 6720479 / 16777216 := by
    rw [round32_eq_of _ (1 / 4) (-2) 13440958 (by norm_num) (by norm_num) (by norm_num)
      (by norm_num) (by rw [abs_lt]; constructor <;> norm_num)]
    norm_num
  have v2 : round32 ((6720478431 / 16777216 : ℚ) + -(6720479 / 16777216))
      = 1639101 / 4096 := by
    rw [round32_eq_of_tie_even _ 256 8 13112808 (by norm_num) (by norm_num) (by norm_num)
      (by norm_num) (by norm_num) (by decide)]
    norm_num
  rw [varied_frequency_zero_draw { simulated_frequency := 26881913723 / 67108864 } _ _ t1 v1,
    varied_frequency_zero_draw { simulated_frequency := 6720478431 / 16777216 } _ _ t2 v2]
  constructor <;> norm_num

/-- C24: for every world and every value `mhz` (zero and negative values included),
`ASIC_set_frequency` returns true and changes the stored frequency to `mhz` and
nothing else: chip count, version mask, baud rate, job-id counter, pending flag and
stored result are as before.  The stored value is the frequency the next
`ASIC_process_work` multiplies into the expected hash rate and the next
`ASIC_get_asic_job_frequency_ms` jitters. -/
theorem C24_set_frequency_stores (w : World) (mhz : ℚ) (RAND_MAX r : Nat) (b : Bool) :
    (ASIC_set_frequency w mhz).1 = true ∧
    (ASIC_set_frequency w mhz).2.sim.simulated_frequency = mhz ∧
    (ASIC_set_frequency w mhz).2
      = { w with sim := { w.sim with simulated_frequency := mhz } } ∧
    (ASIC_set_frequency w mhz).2.sim.simulated_chip_count = w.sim.simulated_chip_count ∧
    (ASIC_set_frequency w mhz).2.sim.simulated_version_mask = w.sim.simulated_version_mask ∧
    (ASIC_set_frequency w mhz).2.sim.simulated_baud_rate = w.sim.simulated_baud_rate ∧
    (ASIC_set_frequency w mhz).2.sim.simulated_job_id_counter
      = w.sim.simulated_job_id_counter ∧
    (ASIC_set_frequency w mhz).2.sim.has_pending_result = w.sim.has_pending_result ∧
    (ASIC_set_frequency w mhz).2.sim.simulated_result = w.sim.simulated_result ∧
    expected_hashrate_ghs (ASIC_set_frequency w mhz).2.sim (ASIC_set_frequency w mhz).2.G
      = FVal.div
          (FVal.mul
            (FVal.mul (FVal.fin mhz)
              (FVal.fin (w.G.DEVICE_CONFIG.family.asic.small_core_count : ℚ)))
            (FVal.fin (w.G.DEVICE_CONFIG.family.asic_count : ℚ)))
          (FVal.fin 1000) ∧
    ASIC_get_asic_job_frequency_ms RAND_MAX r b (ASIC_set_frequency w mhz).2
      = job_freq_ms_of b
          (round32 (mhz + round32 (mhz * round32 (centered_draw RAND_MAX r * lit_0_002f))))
          w.sim.simulated_chip_count :=
  ⟨rfl, rfl, rfl, rfl, rfl, rfl, rfl, rfl, rfl, rfl, rfl⟩

/-- C25: when the Job Slot Table or the Validity Bitmap is a null pointer,
`ASIC_process_work` returns `NULL`, calls `rand()` not once and leaves the whole world
as it was (pending flag, stored result, `last_result_time` and job-id counter
included), for every tick, draw, platform and configuration. -/
theorem C25_process_work_absent_arrays (P : Platform) (tick r1 r2 r3 : Nat) (w : World)
    (h : w.G.active_jobs = none ∨ w.G.valid_jobs = none) :
    (ASIC_process_work P tick r1 r2 r3 w).result = none ∧
    (ASIC_process_work P tick r1 r2 r3 w).rand_calls = 0 ∧
    (ASIC_process_work P tick r1 r2 r3 w).w = w ∧
    (ASIC_process_work P tick r1 r2 r3 w).w.sim.has_pending_result
      = w.sim.has_pending_result ∧
    (ASIC_process_work P tick r1 r2 r3 w).w.sim.simulated_result = w.sim.simulated_result ∧
    (ASIC_process_work P tick r1 r2 r3 w).w.sim.last_result_time = w.sim.last_result_time ∧
    (ASIC_process_work P tick r1 r2 r3 w).w.sim.simulated_job_id_counter
      = w.sim.simulated_job_id_counter := by
  rw [ASIC_process_work_absent P tick r1 r2 r3 w h]
  exact ⟨rfl, rfl, rfl, rfl, rfl, rfl, rfl⟩

/-- C25 at a concrete input: the table is allocated and the bitmap is a null pointer. -/
theorem C25_process_work_absent_arrays_witness :
    (ASIC_process_work hostPlatform 700 0 1 2
      (initialWorld { active_jobs := some emptyTable })).result = none ∧
    (ASIC_process_work hostPlatform 700 0 1 2
      (initialWorld { active_jobs := some emptyTable })).rand_calls = 0 :=
  ⟨(C25_process_work_absent_arrays hostPlatform 700 0 1 2
      (initialWorld { active_jobs := some emptyTable }) (Or.inr rfl)).1,
   (C25_process_work_absent_arrays hostPlatform 700 0 1 2
      (initialWorld { active_jobs := some emptyTable }) (Or.inr rfl)).2.1⟩

/-- C26: in every world reached from the initial one through the public operations,
`has_pending_result` is false, so it is false on entry to every `ASIC_process_work`
and again on its return; and every result such a call returns is the one it has just
synthesized after a successful draw: the branch that would return a result left
pending by an earlier call is never taken. -/
theorem C26_pending_flag_never_persists (P : Platform) (G : GlobalState) (ops : List Op) :
    (run P (initialWorld G) ops).sim.has_pending_result = false ∧
    ∀ tick r1 r2 r3,
      (ASIC_process_work P tick r1 r2 r3
        (run P (initialWorld G) ops)).w.sim.has_pending_result = false ∧
      ∀ res,
        (ASIC_process_work P tick r1 r2 r3 (run P (initialWorld G) ops)).result = some res →
        (r1 % 100 : Int) < result_probability P (run P (initialWorld G) ops).sim
          (run P (initialWorld G) ops).G ∧
        res = { job_id := (run P (initialWorld G) ops).sim.simulated_job_id_counter % 128,
                nonce := r2 % 4294967296,
                rolled_version := 0x20000000 ||| (r3 &&& 0x1FFF) } := by
  obtain ⟨-, hp⟩ := run_invariant P ops (initialWorld G) (initialWorld_invariant G)
  refine ⟨hp, fun tick r1 r2 r3 => ⟨(poll_step P tick r1 r2 r3 _ hp).1, fun res hres => ?_⟩⟩
  obtain ⟨-, -, hfound, hrec⟩ := ASIC_process_work_result_some P tick r1 r2 r3 _ res hp hres
  exact ⟨hfound, hrec⟩

/-- The logging block commutes with a change of the stored chip count. -/
theorem log_performance_chip_count (w : World) (P : Platform) (t c : Nat) :
    World.log_performance { w with sim := { w.sim with simulated_chip_count := c } } P t
      = { w.log_performance P t with
          sim := { (w.log_performance P t).sim with simulated_chip_count := c } } := by
  unfold World.log_performance
  dsimp only
  split_ifs <;> rfl

/-- A poll outside the cooldown whose draw fails while a result is pending on entry:
the stored result is returned and the flag cleared (a branch no run of the engine
takes, see the invariant). -/
theorem ASIC_process_work_pending (P : Platform) (tick r1 r2 r3 : Nat) (w : World)
    (jobs : Fin SLOTS → Option JobRef) (valid : Fin SLOTS → Nat)
    (hj : w.G.active_jobs = some jobs) (hv : w.G.valid_jobs = some valid)
    (hp : w.sim.has_pending_result = true)
    (hcd : ¬ sub32 tick w.sim.last_result_time
      < P.pdMS_TO_TICKS (min_cooldown_ms P w.sim w.G))
    (hfound : ¬ (r1 % 100 : Int) < result_probability P w.sim w.G) :
    ASIC_process_work P tick r1 r2 r3 w
      = { result := some (w.log_performance P (tick % 4294967296)).sim.simulated_result,
          w := { w.log_performance P (tick % 4294967296) with
            sim := { (w.log_performance P (tick % 4294967296)).sim with
              has_pending_result := false } },
          rand_calls := 1,
          yielded := false } := by
  unfold ASIC_process_work
  rw [hj, hv]
  simp only [sub32_mod]
  rw [if_neg hcd]
  simp [hfound, (log_performance_sim w P (tick % 4294967296)).2.2.2.2.2.2.1, hp]

/-- A poll of a world with another stored chip count gives the same outcome, in a
world with that chip count. -/
theorem ASIC_process_work_chip_count (P : Platform) (tick r1 r2 r3 : Nat) (w : World)
    (c : Nat) :
    ASIC_process_work P tick r1 r2 r3
        { w with sim := { w.sim with simulated_chip_count := c } }
      = { result := (ASIC_process_work P tick r1 r2 r3 w).result,
          w := { (ASIC_process_work P tick r1 r2 r3 w).w with
            sim := { (ASIC_process_work P tick r1 r2 r3 w).w.sim with
              simulated_chip_count := c } },
          rand_calls := (ASIC_process_work P tick r1 r2 r3 w).rand_calls,
          yielded := (ASIC_process_work P tick r1 r2 r3 w).yielded } := by
  cases hj : w.G.active_jobs with
  | none =>
    rw [ASIC_process_work_absent P tick r1 r2 r3 w (Or.inl hj),
      ASIC_process_work_absent P tick r1 r2 r3
        { w with sim := { w.sim with simulated_chip_count := c } } (Or.inl hj)]
  | some jobs =>
    cases hv : w.G.valid_jobs with
    | none =>
      rw [ASIC_process_work_absent P tick r1 r2 r3 w (Or.inr hv),
        ASIC_process_work_absent P tick r1 r2 r3
          { w with sim := { w.sim with simulated_chip_count := c } } (Or.inr hv)]
    | some valid =>
      by_cases hcd : sub32 tick w.sim.last_result_time
          < P.pdMS_TO_TICKS (min_cooldown_ms P w.sim w.G)
      · rw [ASIC_process_work_in_cooldown P tick r1 r2 r3 w jobs valid hj hv hcd,
          ASIC_process_work_in_cooldown P tick r1 r2 r3
            { w with sim := { w.sim with simulated_chip_count := c } } jobs valid hj hv hcd]
      · by_cases hfound : (r1 % 100 : Int) < result_probability P w.sim w.G
        · rw [ASIC_process_work_found P tick r1 r2 r3 w jobs valid hj hv hcd hfound,
            ASIC_process_work_found P tick r1 r2 r3
              { w with sim := { w.sim with simulated_chip_count := c } } jobs valid hj hv
              hcd hfound,
            log_performance_chip_count]
        · cases hp : w.sim.has_pending_result with
          | false =>
            rw [ASIC_process_work_not_found P tick r1 r2 r3 w jobs valid hj hv hp hcd hfound,
              ASIC_process_work_not_found P tick r1 r2 r3
                { w with sim := { w.sim with simulated_chip_count := c } } jobs valid hj hv
                hp hcd hfound,
              log_performance_chip_count]
          | true =>
            rw [ASIC_process_work_pending P tick r1 r2 r3 w jobs valid hj hv hp hcd hfound,
              ASIC_process_work_pending P tick r1 r2 r3
                { w with sim := { w.sim with simulated_chip_count := c } } jobs valid hj hv
                hp hcd hfound,
              log_performance_chip_count]

/-- C27: `ASIC_process_work` does not read `simulated_chip_count`.  For two worlds that
differ only in the stored chip count, with the same platform, tick and draws, the call
returns the same result, makes the same number of `rand()` calls, and leaves worlds
that again differ only in the stored chip count; the expected hash rate is computed
from the profile's `asic_count`, not from the stored chip count. -/
theorem C27_process_work_ignores_chip_count (P : Platform) (tick r1 r2 r3 : Nat) (w : World)
    (c : Nat) :
    (ASIC_process_work P tick r1 r2 r3
        { w with sim := { w.sim with simulated_chip_count := c } }).result
      = (ASIC_process_work P tick r1 r2 r3 w).result ∧
    (ASIC_process_work P tick r1 r2 r3
        { w with sim := { w.sim with simulated_chip_count := c } }).w
      = { (ASIC_process_work P tick r1 r2 r3 w).w with
          sim := { (ASIC_process_work P tick r1 r2 r3 w).w.sim with
            simulated_chip_count := c } } ∧
    (ASIC_process_work P tick r1 r2 r3
        { w with sim := { w.sim with simulated_chip_count := c } }).rand_calls
      = (ASIC_process_work P tick r1 r2 r3 w).rand_calls ∧
    expected_hashrate_ghs { w.sim with simulated_chip_count := c } w.G
      = expected_hashrate_ghs w.sim w.G := by
  rw [ASIC_process_work_chip_count P tick r1 r2 r3 w c]
  exact ⟨rfl, rfl, rfl, rfl⟩

/-! ## The DS4432U current DAC simulation -/

/-- C28: for a channel `ch` of 0 or 1 and every 8-bit `code`,
`DS4432U_set_current_code(ch, code)` returns `ESP_OK`, a following
`DS4432U_get_current_code(ch)` returns `ESP_OK` and writes exactly `code`, and the code
of the other channel is unchanged; for a channel of 2 or more both functions return
`ESP_FAIL`, the setter leaves both stored codes as they were and the getter writes
nothing. -/
theorem C28_code_round_trip (s : DS4432UState) (ch code : Nat) (hcode : code < 256) :
    (ch = 0 ∨ ch = 1 →
      (DS4432U_set_current_code s ch code).1 = ESP_OK ∧
      DS4432U_get_current_code (DS4432U_set_current_code s ch code).2 ch
        = (ESP_OK, some code) ∧
      (ch = 0 → (DS4432U_set_current_code s ch code).2.simulated_out1_code
        = s.simulated_out1_code) ∧
      (ch = 1 → (DS4432U_set_current_code s ch code).2.simulated_out0_code
        = s.simulated_out0_code)) ∧
    (2 ≤ ch →
      (DS4432U_set_current_code s ch code).1 = ESP_FAIL ∧
      (DS4432U_set_current_code s ch code).2 = s ∧
      DS4432U_get_current_code s ch = (ESP_FAIL, none)) := by
  have hmod : code % 256 = code := Nat.mod_eq_of_lt hcode
  constructor
  · rintro (rfl | rfl)
    · simp [DS4432U_set_current_code, DS4432U_get_current_code, hmod]
    · simp [DS4432U_set_current_code, DS4432U_get_current_code, hmod]
  · intro h2
    have h0 : ch ≠ 0 := by omega
    have h1 : ch ≠ 1 := by omega
    simp [DS4432U_set_current_code, DS4432U_get_current_code, h0, h1]

/-- C28 at a concrete input: the codes of the simulation's own test, 0x80 on channel 0
after 0x40 on channel 1. -/
theorem C28_code_round_trip_witness :
    DS4432U_get_current_code
        (DS4432U_set_current_code (DS4432U_set_current_code {} 1 0x40).2 0 0x80).2 0
      = (ESP_OK, some 0x80) ∧
    (DS4432U_set_current_code (DS4432U_set_current_code {} 1 0x40).2 0 0x80).2.simulated_out1_code
      = 0x40 :=
  ⟨((C28_code_round_trip (DS4432U_set_current_code {} 1 0x40).2 0 0x80 (by decide)).1
      (Or.inl rfl)).2.1,
   (((C28_code_round_trip (DS4432U_set_current_code {} 1 0x40).2 0 0x80 (by decide)).1
      (Or.inl rfl)).2.2.1 rfl).trans (by decide)⟩

/-- The magnitude computed for 2.0 V: about 146.38. -/
theorem DS4432U_change_2V : DS4432U_change 2 = 736600000 / 5032207 := by
  unfold DS4432U_change TPS40305_VFB BITAXE_RB BITAXE_RA BITAXE_IFS
  rw [abs_of_neg (by norm_num)]
  norm_num

/-- C29, evaluated on the code where the claim fails: 2.0 V is accepted (it lies in
[0.046, 2.39]) and is not below the nominal 1.451 V; the magnitude is about 146.38, so
`ceil` gives 147 = 0x93 and OUT0 becomes 0x93: its most significant bit is set and its
low 7 bits are 19, not 147. -/
theorem C29_set_voltage_2V_overflows_sign_bit (oor_uint8 : Nat) (s : DS4432UState) :
    BITAXE_VMIN ≤ 2 ∧ (2 : ℚ) ≤ BITAXE_VMAX ∧ ¬ ((2 : ℚ) < BITAXE_VNOM) ∧
    ⌈DS4432U_change 2⌉ = 147 ∧
    DS4432U_set_voltage oor_uint8 s 2 = (ESP_OK, { s with simulated_out0_code := 147 }) ∧
    147 &&& 0x80 = 0x80 ∧ 147 &&& 0x7F = 19 := by
  have hceil : ⌈DS4432U_change 2⌉ = 147 := by
    rw [DS4432U_change_2V, Int.ceil_eq_iff]
    constructor <;> norm_num
  have hacc : ¬ ((2 : ℚ) > BITAXE_VMAX ∨ (2 : ℚ) < BITAXE_VMIN) := by
    unfold BITAXE_VMAX BITAXE_VMIN
    norm_num
  have hnom : ¬ ((2 : ℚ) < BITAXE_VNOM) := by
    unfold BITAXE_VNOM
    norm_num
  refine ⟨by unfold BITAXE_VMIN; norm_num, by unfold BITAXE_VMAX; norm_num, hnom, hceil,
    ?_, by decide, by decide⟩
  unfold DS4432U_set_voltage
  rw [if_neg hacc]
  simp only [hceil, if_neg hnom]
  rfl

/-- The sign bit and the low seven bits of a code built from a magnitude below 128. -/
theorem sign_and_magnitude_bits :
    ∀ n, n < 128 →
      (n ||| 0x80) &&& 0x80 = 0x80 ∧ (n ||| 0x80) &&& 0x7F = n ∧
      n &&& 0x80 = 0 ∧ n &&& 0x7F = n := by
  decide

/-- Where the code does what the claim says: for an accepted voltage whose magnitude
`ceil(change)` is at most 127, OUT0 gets the sign bit exactly when the voltage is below
nominal, and its low seven bits are the magnitude. -/
theorem DS4432U_set_voltage_small_magnitude (oor_uint8 : Nat) (s : DS4432UState) (vout : ℚ)
    (hmin : BITAXE_VMIN ≤ vout) (hmax : vout ≤ BITAXE_VMAX)
    (hmag : ⌈DS4432U_change vout⌉ ≤ 127) :
    (DS4432U_set_voltage oor_uint8 s vout).1 = ESP_OK ∧
    (DS4432U_set_voltage oor_uint8 s vout).2.simulated_out1_code = s.simulated_out1_code ∧
    ((DS4432U_set_voltage oor_uint8 s vout).2.simulated_out0_code &&& 0x80 = 0x80
      ↔ vout < BITAXE_VNOM) ∧
    (DS4432U_set_voltage oor_uint8 s vout).2.simulated_out0_code &&& 0x7F
      = ⌈DS4432U_change vout⌉.toNat := by
  have hacc : ¬ (vout > BITAXE_VMAX ∨ vout < BITAXE_VMIN) := by
    push_neg
    exact ⟨hmax, hmin⟩
  have h0 : 0 ≤ ⌈DS4432U_change vout⌉ :=
    Int.ceil_nonneg (by unfold DS4432U_change; exact abs_nonneg _)
  have hn : ⌈DS4432U_change vout⌉.toNat < 128 := by omega
  obtain ⟨b1, b2, b3, b4⟩ := sign_and_magnitude_bits _ hn
  have h256 : ⌈DS4432U_change vout⌉ < 256 := by omega
  unfold DS4432U_set_voltage
  rw [if_neg hacc]
  simp only [if_pos h256]
  by_cases hnom : vout < BITAXE_VNOM
  · have hlt : (⌈DS4432U_change vout⌉.toNat ||| 0x80) % 256
        = ⌈DS4432U_change vout⌉.toNat ||| 0x80 :=
      Nat.mod_eq_of_lt (Nat.or_lt_two_pow (n := 8) (by omega) (by norm_num))
    simp only [if_pos hnom, DS4432U_set_current_code, if_true, hlt]
    exact ⟨trivial, trivial, ⟨fun _ => hnom, fun _ => b1⟩, b2⟩
  · have hlt : ⌈DS4432U_change vout⌉.toNat % 256 = ⌈DS4432U_change vout⌉.toNat :=
      Nat.mod_eq_of_lt (by omega)
    simp only [if_neg hnom, DS4432U_set_current_code, if_true, hlt]
    refine ⟨trivial, trivial, ⟨fun h => ?_, fun h => absurd h hnom⟩, b4⟩
    rw [b3] at h
    exact absurd h (by decide)

/-! ## The ADC simulation -/

/-- C30, evaluated on the code where the claim fails: with 65535 mV configured and a
random draw of 20 (variation +10) the sum 65545 does not fit the `uint16_t` result:
`ADC_get_vcore` returns 9, which is 65526 mV away from the configured value. -/
theorem C30_vcore_wraps_at_65535 :
    ADC_get_vcore 65535 20 = 9 ∧ ¬ ((65535 : Int) - (ADC_get_vcore 65535 20 : Int) ≤ 10) := by
  decide

/-- Where the code does what the claim says: for a configured voltage of at most
65525 mV the returned value is within 10 mV of it, for every random draw. -/
theorem ADC_get_vcore_within_10 (configured random : Nat) (h : configured ≤ 65525) :
    (ADC_get_vcore configured random : Int) - configured ≤ 10 ∧
    (configured : Int) - ADC_get_vcore configured random ≤ 10 := by
  unfold ADC_get_vcore
  dsimp only
  split_ifs with hpos
  · have hv : ((random % 4294967296 % 21 : Nat) : Int) < 21 := by omega
    have hnn : 0 ≤ ((configured : Int) + (((random % 4294967296 % 21 : Nat) : Int) - 10))
        % 65536 := Int.emod_nonneg _ (by norm_num)
    rw [Int.toNat_of_nonneg hnn]
    omega
  · omega

/-! ## The TPS546 regulator: setting and reading the output voltage -/

end EspMinerSim
